import Mathlib

/-!
Shallow embedding of the z64-bank-converter instrument-bank codec
(src/utils/audiobank/Audiobank.py and src/utils/audiobank/structs/*),
together with theorems settling the frozen claims about its spec.

Modelling conventions:
* a byte buffer is a `List Nat` of values < 256 (reads never assume the
  bound; encoders check it exactly where `struct.pack` would raise);
* Python's truncating slice `data[a:b]` is `pySlice`; `struct.unpack`'s
  exact-length requirement is `exactSlice`;
* every Python exception that can escape a codec (`struct.error`,
  `AssertionError`, `ValueError`, `AttributeError`, `NameError`) is
  modelled as `none` of an `Option` result;
* `float32` fields (the sample tunings) are carried as their raw 32-bit
  big-endian bit patterns; the only float operation the codec performs on
  them is comparison with `0.0`, which holds exactly for the two zero
  patterns (`f32IsZero`); their `str()` rendering in the XML dictionaries
  is abstracted by the context function `floatStr`;
* the registries are Python `dict`s keyed by integer offset, which
  preserve insertion order; they are modelled as association lists that
  append on first insertion (`regFind`);
* the module-level globals of Sample.py (`DETECTED_GAME`, `AUDIOTABLE_ID`,
  `SAMPLE_NAMES`), set by the command-line front end before decoding, are
  modelled as an explicit decode context `Ctx`.
-/

namespace Z64

/-! ## Byte-level primitives -/

abbrev Bytes := List Nat

/-- Python's truncating slice `data[a:b]`. -/
def pySlice (d : Bytes) (a b : Nat) : Bytes := (d.drop a).take (b - a)

/-- Python's `struct.unpack` needs the slice to hold exactly `len` bytes, else it raises. -/
def exactSlice (d : Bytes) (off len : Nat) : Option Bytes :=
  let s := pySlice d off (off + len)
  if s.length = len then some s else none

/-- Big-endian value of a byte list (`int.from_bytes(..., 'big')`). -/
def beNat (bs : Bytes) : Nat := bs.foldl (fun a b => a * 256 + b) 0

/-- Python's `int.from_bytes(data[off:off+4])`: truncating, never raises. -/
def readU32t (d : Bytes) (off : Nat) : Nat := beNat (pySlice d off (off + 4))

/-- Two's-complement reading of a 16-bit big-endian value (`struct` format `h`). -/
def toI16 (n : Nat) : Int := if n < 32768 then (n : Int) else (n : Int) - 65536

/-- Two's-complement reading of a 32-bit big-endian value (`struct` format `i`). -/
def toI32 (n : Nat) : Int := if n < 2 ^ 31 then (n : Int) else (n : Int) - 2 ^ 32

/-- The `w` big-endian bytes of `n` (meaningful for `n < 256 ^ w`). -/
def beBytes : Nat → Nat → Bytes
  | 0, _ => []
  | w + 1, n => beBytes w (n / 256) ++ [n % 256]

/-- Python's `struct.pack '>B'` with its range check. -/
def packU8 (n : Nat) : Option Bytes := if n < 256 then some [n] else none

/-- Python's `struct.pack '>H'` with its range check. -/
def packU16 (n : Nat) : Option Bytes := if n < 65536 then some (beBytes 2 n) else none

/-- Python's `struct.pack '>I'` with its range check. -/
def packU32 (n : Nat) : Option Bytes := if n < 2 ^ 32 then some (beBytes 4 n) else none

/-- Python's `struct.pack '>h'` with its range check. -/
def packI16 (v : Int) : Option Bytes :=
  if -32768 ≤ v ∧ v < 32768 then some (beBytes 2 (v % 65536).toNat) else none

/-- Python's `struct.pack '>i'` with its range check. -/
def packI32 (v : Int) : Option Bytes :=
  if -(2 ^ 31) ≤ v ∧ v < 2 ^ 31 then some (beBytes 4 (v % 2 ^ 32).toNat) else none

/-- Consecutive `>h` values of a byte list (pairs of bytes, big-endian). -/
def parseI16s : Bytes → List Int
  | b0 :: b1 :: rest => toI16 (b0 * 256 + b1) :: parseI16s rest
  | _ => []

/-- The float32 bit patterns whose Python float compares equal to `0.0`. -/
def f32IsZero (bits : Nat) : Bool := bits == 0 || bits == 0x80000000

/-! ## Helpers.py -/

/-- Python's `align_to_16`: round up to the next multiple of 16
(`(data + 0x0F) & ~0x0F`, equivalently `(data + 0xF) // 0x10 * 0x10`). -/
def align_to_16 (n : Nat) : Nat := (n + 0x0F) / 0x10 * 0x10

/-- Python's `add_padding_to_16`: zero-pad a byte string to a multiple of 16. -/
def add_padding_to_16 (b : Bytes) : Bytes :=
  b ++ List.replicate ((16 - b.length % 16) % 16) 0

/-- Python's `add_table_oot`: audiotable base adjustment for OoT sample naming. -/
def add_table_oot (tableNum tableOffset : Nat) : Nat :=
  if tableNum = 2 then tableOffset + 0x3FA9E0
  else if tableNum = 3 then tableOffset + 0x4006B0
  else if tableNum = 4 then tableOffset + 0x41D760
  else if tableNum = 5 then tableOffset + 0x427D30
  else if tableNum = 6 then tableOffset + 0x4377E0
  else tableOffset

/-- Python's `add_table_mm`: audiotable base adjustment for MM sample naming. -/
def add_table_mm (tableNum tableOffset : Nat) : Nat :=
  if tableNum = 2 then tableOffset + 0x538CC0 else tableOffset

/-! ## Decode context

Sample.py consults three module globals set by the front end:
`DETECTED_GAME` (either `'oot'` or `'mm'` once the front end has run;
decoding with the unset default raises `NameError`), `AUDIOTABLE_ID`,
and the `SAMPLE_NAMES` lookup table. `floatStr` abstracts Python's
`str()` on the float32 with the given bit pattern (used only by the
XML dictionary exporters). -/

inductive Game | oot | mm
deriving DecidableEq

structure Ctx where
  game : Game
  audiotableId : Nat
  sampleNames : Nat → Option String
  floatStr : Nat → String

/-- Python's `Sample._get_sample_name`: name lookup, empty string when missing. -/
def Ctx.getSampleName (ctx : Ctx) (nameOffset : Nat) : String :=
  match ctx.sampleNames nameOffset with
  | some s => s
  | none => ""

/-! ## Registries (Python dicts keyed by offset, insertion-ordered) -/

abbrev Registry (α : Type) := List (Nat × α)

/-- Dict membership/lookup (`k in registry` / `registry[k]`). -/
def regFind {α : Type} : Registry α → Nat → Option α
  | [], _ => none
  | p :: rest, k => if p.1 = k then some p.2 else regFind rest k

/-- Insertion-ordered key sequence of a registry. -/
def regKeys {α : Type} (r : Registry α) : List Nat := r.map Prod.fst

/-! ## Envelope (structs/Envelope.py) -/

structure Envelope where
  name : String
  offset : Nat
  index : Int
  points : List (Int × Int)
deriving DecidableEq

/-- Field defaults of `Envelope.__init__`. -/
def Envelope.init : Envelope := { name := "Envelope", offset := 0, index := -1, points := [] }

/-- Python's `EnvelopeNames.VANILLA_ENVELOPES`. The seventh element of the source
list is the empty tuple `()`, which cannot be unpacked as `name, data`
and is modelled as `none`. -/
def VANILLA_ENVELOPES : List (Option (String × List Int)) := [
  some ("Effects 1 Envelope [1]",           [1, 32700, 1, 32700, 32700, 32700, -1, 0]),
  some ("Effects 1 Envelope [2]",           [1, 0, 30, 32700, 690, 0, -1, 0]),
  some ("Effects 1 Envelope [3]",           [0, 0, 30, 32700, 690, 0, -1, 0]),
  some ("Effects 1 Envelope [4]",           [1, 32727, 30, 29000, 690, 0, -1, 0]),
  some ("Effects 1 Envelope [5]",           [8, 32700, 5000, 0, -1, 0, 0, 0]),
  some ("Effects 1 Envelope [6]",           [8, 32700, 32700, 29430, -1, 0, 0, 0]),
  none,
  some ("Ambience Envelope",                [1, 32700, 0, 32700, 32700, 32700, -1, 0]),
  some ("General Use Envelope",             [2, 32700, 1, 32700, 32700, 29430, -1, 0]),
  some ("Glockenspiel Envelope",            [2, 32700, 127, 5615, 73, 0, -1, 0]),
  some ("Piano Envelope",                   [2, 32700, 229, 0, 1, 0, -1, 0]),
  some ("Hold (298) Envelope",              [2, 32700, 298, 32700, 32700, 29430, -1, 0]),
  some ("Marimba Envelope",                 [2, 32700, 121, 1651, 1, 0, -1, 0]),
  some ("Decay (298) Envelope",             [2, 32700, 298, 0, 1, 0, -1, 0]),
  some ("Pandeiro & Tambourine Envelope",   [2, 32700, 298, 12882, 1, 0, -1, 0]),
  some ("Slow Attack Envelope",             [32, 32700, 1, 32700, 32700, 29430, -1, 0]),
  some ("Malon & Lulu Envelope",            [8, 32700, 1, 32700, 32700, 29430, -1, 0]),
  some ("Decay (421) Envelope",             [2, 32700, 1, 32700, 421, 0, -1, 0]),
  some ("Banjo Envelope",                   [2, 32700, 130, 4954, 523, 0, -1, 0]),
  some ("Steel Drum Envelope",              [2, 32700, 250, 0, 1, 0, -1, 0]),
  some ("Decay (289) Envelope",             [2, 32700, 1, 32700, 289, 0, -1, 0]),
  some ("SYNFantasia3 Envelope",            [2, 32700, 1, 32700, 433, 0, -1, 0]),
  some ("Female Choir Envelope",            [21, 32700, 1, 32700, 32700, 29430, -1, 0]),
  some ("Reverb Marimba Envelope",          [2, 32700, 145, 29067, 31, 0, -1, 0]),
  some ("DIGI PAD 04 Envelope",             [42, 32700, 298, 32700, 32700, 29430, -1, 0]),
  some ("ENIGMATIC Envelope 1",             [69, 32700, 1, 32700, 32700, 29430, -1, 0]),
  some ("ENIGMATIC Envelope 2",             [24, 32700, 1, 32700, 32700, 29430, -1, 0]),
  some ("Metal Grind Envelope",             [50, 32700, 298, 32700, 32700, 29430, -1, 0]),
  some ("Duduk Envelope",                   [17, 32700, 1, 32700, 32700, 29430, -1, 0]),
  some ("Fretless Bass Envelope",           [2, 32700, 1, 32700, 409, 0, -1, 0]),
  some ("Rhodes E. Piano Envelope",         [2, 32700, 1, 32700, 439, 0, -1, 0]),
  some ("Velocity MC-202 Envelope",         [2, 32700, 1, 30718, 409, 0, -1, 0]),
  some ("VERBHHOD6 ALT Envelope",           [20, 32700, 1, 32700, 32700, 29430, -1, 0]),
  some ("Fretless Bass ALT Envelope",       [2, 32700, 1, 32700, 511, 0, -1, 0]),
  some ("Tabla Envelope",                   [2, 32700, 1, 32700, 565, 0, -1, 0])]

/-- Iterating `for name, data in VANILLA_ENVELOPES` left to right:
reaching the empty tuple raises `ValueError` (modelled as `none`);
falling off the end returns the empty string. -/
def envelopeNameSearch : List (Option (String × List Int)) → List Int → Option String
  | [], _ => some ""
  | some (n, d) :: rest, flat => if flat = d then some n else envelopeNameSearch rest flat
  | none :: _, _ => none

/-- Python's `Envelope._get_envelope_name`: flatten the points, search the table. -/
def getEnvelopeName (points : List (Int × Int)) : Option String :=
  envelopeNameSearch VANILLA_ENVELOPES
    (points.foldr (fun p acc => p.1 :: p.2 :: acc) [])

/-- The `while i + 4 <= len(bank_data)` loop of `Envelope.from_bytes`:
read `(delay, arg)` pairs until a negative delay is appended (fuel is the
buffer length, an upper bound on the iteration count since `i` grows by 4). -/
def envelopeReadPoints (data : Bytes) : Nat → Nat → List (Int × Int)
  | _, 0 => []
  | i, fuel + 1 =>
    if i + 4 ≤ data.length then
      let delay := toI16 (beNat (pySlice data i (i + 2)))
      let arg := toI16 (beNat (pySlice data (i + 2) (i + 4)))
      if delay < 0 then [(delay, arg)]
      else (delay, arg) :: envelopeReadPoints data (i + 4) fuel
    else []

/-- Python's `Envelope.from_bytes`: memoized on the registry; reads the terminated
point list, resolves the name (which can raise, see `VANILLA_ENVELOPES`),
inserts at the next index. -/
def Envelope.fromBytes (off : Nat) (data : Bytes) (reg : Registry Envelope) :
    Option (Envelope × Registry Envelope) :=
  match regFind reg off with
  | some e => some (e, reg)
  | none =>
    let points := envelopeReadPoints data off data.length
    match getEnvelopeName points with
    | none => none
    | some nm =>
      let e : Envelope :=
        { Envelope.init with
          name := if nm ≠ "" then nm else "Envelope"
          offset := off
          index := (reg.length : Int)
          points := points }
      some (e, reg ++ [(off, e)])

/-- Python's `Envelope.to_bytes`: flatten the points and pack `'>h'` values,
padding the result to 16 bytes. -/
def Envelope.toBytes (e : Envelope) : Option Bytes := do
  let flat := e.points.foldr (fun p acc => p.1 :: p.2 :: acc) []
  let packed ← flat.mapM packI16
  some (add_padding_to_16 packed.flatten)

/-! ## AdpcmLoop (structs/Loopbook.py) -/

structure AdpcmLoop where
  name : String
  offset : Nat
  index : Int
  loop_start : Nat
  loop_end : Nat
  loop_count : Int
  num_samples : Nat
  predictor_array : List Int
deriving DecidableEq

/-- Field defaults of `AdpcmLoop.__init__`. -/
def AdpcmLoop.init : AdpcmLoop :=
  { name := "Loopbook", offset := 0, index := -1, loop_start := 0, loop_end := 0,
    loop_count := 0, num_samples := 0, predictor_array := [] }

/-- Python's `AdpcmLoop.from_bytes`: memoized; `'>2I 1i 1I'` header, count must be
0 or -1, a 16-entry int16 tail follows when the count is nonzero. -/
def AdpcmLoop.fromBytes (off : Nat) (data : Bytes) (reg : Registry AdpcmLoop) :
    Option (AdpcmLoop × Registry AdpcmLoop) :=
  match regFind reg off with
  | some l => some (l, reg)
  | none =>
    match exactSlice data off 0x10 with
    | none => none
    | some s =>
      let loopStart := beNat (s.take 4)
      let loopEnd := beNat (pySlice s 4 8)
      let loopCount := toI32 (beNat (pySlice s 8 12))
      let numSamples := beNat (pySlice s 12 16)
      if loopCount = 0 ∨ loopCount = -1 then
        match (if loopCount ≠ 0 then
                (exactSlice data (off + 0x10) 0x20).map parseI16s
              else some []) with
        | none => none
        | some tail =>
          let l : AdpcmLoop :=
            { AdpcmLoop.init with
              offset := off, index := (reg.length : Int),
              loop_start := loopStart, loop_end := loopEnd,
              loop_count := loopCount, num_samples := numSamples,
              predictor_array := tail }
          some (l, reg ++ [(off, l)])
      else none

/-- Python's `AdpcmLoop.to_bytes`: header plus, when the count is nonzero, a packed
16-entry tail (`struct.pack('>16h', *array)` raises unless exactly 16). -/
def AdpcmLoop.toBytes (l : AdpcmLoop) : Option Bytes := do
  let a ← packU32 l.loop_start
  let b ← packU32 l.loop_end
  let c ← packI32 l.loop_count
  let d ← packU32 l.num_samples
  let raw := a ++ b ++ c ++ d
  if l.loop_count ≠ 0 then
    if l.predictor_array.length = 16 then
      let packed ← (l.predictor_array.mapM packI16)
      some (add_padding_to_16 (raw ++ packed.flatten))
    else none
  else
    some (add_padding_to_16 raw)

/-! ## AdpcmBook (structs/Codebook.py) -/

structure AdpcmBook where
  name : String
  offset : Nat
  index : Int
  order : Nat
  num_predictors : Nat
  predictor_arrays : List (List Int)
deriving DecidableEq

/-- Field defaults of `AdpcmBook.__init__`. -/
def AdpcmBook.init : AdpcmBook :=
  { name := "Codebook", offset := 0, index := -1, order := 2, num_predictors := 2,
    predictor_arrays := [] }

/-- Python's `AdpcmBook.from_bytes`: memoized; `'>2I'` header with order = 2 and
2 or 4 predictors; `iter_unpack('>16h', ...)` over the truncating slice
`bank_data[off+8 : off+8+num*0x20]` (it raises unless the slice length is
a multiple of 32), then `islice` keeps at most `num_predictors` arrays —
fewer when the span is short. -/
def AdpcmBook.fromBytes (off : Nat) (data : Bytes) (reg : Registry AdpcmBook) :
    Option (AdpcmBook × Registry AdpcmBook) :=
  match regFind reg off with
  | some b => some (b, reg)
  | none =>
    match exactSlice data off 0x8 with
    | none => none
    | some s =>
      let order := beNat (s.take 4)
      let numPredictors := beNat (pySlice s 4 8)
      if order = 2 ∧ (numPredictors = 2 ∨ numPredictors = 4) then
        let predictorData := pySlice data (off + 0x8) (off + 0x8 + numPredictors * 0x20)
        if predictorData.length % 32 = 0 then
          let available := predictorData.length / 32
          let arrays := (List.range (min numPredictors available)).map
            (fun j => parseI16s (pySlice predictorData (32 * j) (32 * j + 32)))
          let b : AdpcmBook :=
            { AdpcmBook.init with
              offset := off, index := (reg.length : Int),
              order := order, num_predictors := numPredictors,
              predictor_arrays := arrays }
          some (b, reg ++ [(off, b)])
        else none
      else none

/-- Python's `AdpcmBook.to_bytes`: `'>2i'` header, then each 16-entry array
(`ValueError` when an array is not 16 long). -/
def AdpcmBook.toBytes (b : AdpcmBook) : Option Bytes := do
  let o ← packI32 (b.order : Int)
  let n ← packI32 (b.num_predictors : Int)
  if b.predictor_arrays.all (fun a => a.length = 16) then
    let packed ← b.predictor_arrays.mapM (fun a => (a.mapM packI16).map List.flatten)
    some (add_padding_to_16 (o ++ n ++ packed.flatten))
  else none

end Z64

namespace Z64

/-! ## Sample (structs/Sample.py) -/

structure Sample where
  name : String
  offset : Nat
  index : Int
  bits : Nat
  unk_0 : Nat
  codec : Nat
  medium : Nat
  is_cached : Nat
  is_relocated : Nat
  size : Nat
  table_offset : Nat
  loopbook_offset : Nat
  codebook_offset : Nat
  loopbook : Option AdpcmLoop
  codebook : Option AdpcmBook
deriving DecidableEq

/-- Field defaults of `Sample.__init__`. -/
def Sample.init : Sample :=
  { name := "Sample", offset := 0, index := -1, bits := 0, unk_0 := 0, codec := 0,
    medium := 0, is_cached := 0, is_relocated := 0, size := 0, table_offset := 0,
    loopbook_offset := 0, codebook_offset := 0, loopbook := none, codebook := none }

/-- Python's `Sample.from_bytes`: the registry check on lines 92-94 comes first,
so a memoized hit returns the cached instance with every registry
untouched.  A registry miss (a fresh decode) always raises and is
therefore `none`: a short slice makes `struct.unpack('>4I', ...)` raise
`struct.error`; otherwise the asserts run in order — `codebook_offset != 0`
(line 113), `loopbook_offset != 0` (line 114) — and then line 115
evaluates `AudioSampleCodec.CODEC_ADPCM`, a member `utils/Enums.py` does
not define (its `AudioSampleCodec` holds `ADPCM`/`SMALL_ADPCM`, its
`AudioStorageMedium` holds `RAM`; the `CODEC_`/`MEDIUM_`-named members
exist nowhere in the program), raising `AttributeError` for every codec
value the enum constructor accepts (0-5) and `ValueError` for 6 and 7.
The name lookup, the loopbook/codebook decode, the renames and the
registry insertion on lines 119-137 are unreachable from a fresh binary
decode. -/
def Sample.fromBytes (_ctx : Ctx) (off : Nat) (_data : Bytes)
    (sReg : Registry Sample) (lReg : Registry AdpcmLoop) (bReg : Registry AdpcmBook) :
    Option (Sample × Registry Sample × Registry AdpcmLoop × Registry AdpcmBook) :=
  match regFind sReg off with
  | some s => some (s, sReg, lReg, bReg)
  | none => none

/-- Python's `Sample.to_bytes`: reassemble the bitfield and pack `'>4I'`. -/
def Sample.toBytes (s : Sample) : Option Bytes := do
  let bits := s.unk_0 % 2 * 2 ^ 31 + s.codec % 8 * 2 ^ 28 + s.medium % 4 * 2 ^ 26 +
    s.is_cached % 2 * 2 ^ 25 + s.is_relocated % 2 * 2 ^ 24 + s.size % 2 ^ 24
  let a ← packU32 bits
  let b ← packU32 s.table_offset
  let c ← packU32 s.loopbook_offset
  let d ← packU32 s.codebook_offset
  some (a ++ b ++ c ++ d)

/-! ## SoundEffect (structs/Effect.py) -/

structure SoundEffect where
  offset : Nat
  index : Int
  sample_offset : Nat
  sample_tuning : Nat
  sample : Option Sample
deriving DecidableEq

/-- Field defaults of `SoundEffect.__init__`. -/
def SoundEffect.init : SoundEffect :=
  { offset := 0, index := -1, sample_offset := 0, sample_tuning := 0, sample := none }

/-- Python's `SoundEffect.from_bytes`: `'>1I1f'` record; the sample pointer is fed
to `Sample.from_bytes` without any zero check. -/
def SoundEffect.fromBytes (ctx : Ctx) (idx : Int) (off : Nat) (data : Bytes)
    (sReg : Registry Sample) (lReg : Registry AdpcmLoop) (bReg : Registry AdpcmBook) :
    Option (SoundEffect × Registry Sample × Registry AdpcmLoop × Registry AdpcmBook) :=
  match exactSlice data off 0x08 with
  | none => none
  | some s =>
    let sampleOff := beNat (s.take 4)
    let tuning := beNat (pySlice s 4 8)
    match Sample.fromBytes ctx sampleOff data sReg lReg bReg with
    | none => none
    | some (smp, sReg1, lReg1, bReg1) =>
      some ({ SoundEffect.init with
                offset := off, index := idx, sample_offset := sampleOff,
                sample_tuning := tuning, sample := some smp },
            sReg1, lReg1, bReg1)

/-- Python's `SoundEffect.to_bytes`: pack `'>1I1f'`. -/
def SoundEffect.toBytes (e : SoundEffect) : Option Bytes := do
  let a ← packU32 e.sample_offset
  let b ← packU32 e.sample_tuning
  some (a ++ b)

/-! ## Drum (structs/Drum.py) -/

structure Drum where
  name : String
  offset : Nat
  index : Int
  decay_index : Nat
  pan : Nat
  is_relocated : Nat
  sample_offset : Nat
  sample_tuning : Nat
  envelope_offset : Nat
  sample : Option Sample
  envelope : Option Envelope
deriving DecidableEq

/-- Field defaults of `Drum.__init__`. -/
def Drum.init : Drum :=
  { name := "Drum", offset := 0, index := -1, decay_index := 255, pan := 64,
    is_relocated := 0, sample_offset := 0, sample_tuning := 0, envelope_offset := 0,
    sample := none, envelope := none }

/-- Python's `str.rstrip(':')`. -/
def rstripColon (s : String) : String :=
  String.mk ((s.toList.reverse.dropWhile (fun c => c = ':')).reverse)

/-- Python's `Drum._get_drum_name`: strip the sample name down at its colons
(Python's `split` never yields an empty list, so `parts[0]` is total). -/
def getDrumName (sampleName : String) : String :=
  let parts := sampleName.splitOn ":"
  let strippedName :=
    if parts.length = 4 then parts.headD "" ++ ":" ++ parts.getD 1 ""
    else if parts.length = 3 then parts.headD ""
    else parts.headD sampleName
  if strippedName ≠ "" then rstripColon strippedName else ""

/-- Python's `struct.unpack('>3B 1x 1I1f 1I', bank_data[off:off+0x10])`, giving
(decay, pan, relocated, sample pointer, tuning bits, envelope pointer). -/
def drumUnpack (data : Bytes) (off : Nat) : Option (Nat × Nat × Nat × Nat × Nat × Nat) :=
  match exactSlice data off 0x10 with
  | some [b0, b1, b2, _, s0, s1, s2, s3, t0, t1, t2, t3, e0, e1, e2, e3] =>
    some (b0, b1, b2, beNat [s0, s1, s2, s3], beNat [t0, t1, t2, t3], beNat [e0, e1, e2, e3])
  | _ => none

/-- Python's `Drum.from_bytes`: fatal checks (relocated clear, nonzero sample
pointer — a zero one crashes the game); decodes the sample through the
registries and the envelope only when its pointer is nonzero; derives the
drum name from the sample name. -/
def Drum.fromBytes (ctx : Ctx) (idx : Int) (off : Nat) (data : Bytes)
    (eReg : Registry Envelope) (sReg : Registry Sample)
    (lReg : Registry AdpcmLoop) (bReg : Registry AdpcmBook) :
    Option (Drum × Registry Envelope × Registry Sample ×
            Registry AdpcmLoop × Registry AdpcmBook) :=
  match drumUnpack data off with
  | none => none
  | some (decay, pan, reloc, sampleOff, tuning, envOff) =>
    if reloc = 0 then
      if sampleOff ≠ 0 then
        match Sample.fromBytes ctx sampleOff data sReg lReg bReg with
        | none => none
        | some (smp, sReg1, lReg1, bReg1) =>
          match (if envOff ≠ 0 then
                  (Envelope.fromBytes envOff data eReg).map (fun p => (some p.1, p.2))
                else some (none, eReg)) with
          | none => none
          | some (env, eReg1) =>
            let dn := getDrumName smp.name
            let d : Drum :=
              { Drum.init with
                name := if dn ≠ "" ∧ dn ≠ "Sample" then dn else "Drum",
                offset := off, index := idx, decay_index := decay, pan := pan,
                is_relocated := reloc, sample_offset := sampleOff,
                sample_tuning := tuning, envelope_offset := envOff,
                sample := some smp, envelope := env }
            some (d, eReg1, sReg1, lReg1, bReg1)
      else none
    else none

/-- Python's `Drum.to_bytes`: pack `'>3B 1x 1I1f 1I'` (the padding byte is zero). -/
def Drum.toBytes (d : Drum) : Option Bytes := do
  let a ← packU8 d.decay_index
  let b ← packU8 d.pan
  let c ← packU8 d.is_relocated
  let e ← packU32 d.sample_offset
  let f ← packU32 d.sample_tuning
  let g ← packU32 d.envelope_offset
  some (a ++ b ++ c ++ [0] ++ e ++ f ++ g)

/-! ## Instrument (structs/Instrument.py) -/

structure Instrument where
  name : String
  offset : Nat
  index : Int
  is_relocated : Nat
  key_region_low : Nat
  key_region_high : Nat
  decay_index : Nat
  envelope_offset : Nat
  low_sample_offset : Nat
  low_sample_tuning : Nat
  prim_sample_offset : Nat
  prim_sample_tuning : Nat
  high_sample_offset : Nat
  high_sample_tuning : Nat
  envelope : Option Envelope
  low_sample : Option Sample
  prim_sample : Option Sample
  high_sample : Option Sample
deriving DecidableEq

/-- Field defaults of `Instrument.__init__`. -/
def Instrument.init : Instrument :=
  { name := "Instrument", offset := 0, index := -1, is_relocated := 0,
    key_region_low := 0, key_region_high := 127, decay_index := 255,
    envelope_offset := 0, low_sample_offset := 0, low_sample_tuning := 0,
    prim_sample_offset := 0, prim_sample_tuning := 0, high_sample_offset := 0,
    high_sample_tuning := 0, envelope := none, low_sample := none,
    prim_sample := none, high_sample := none }

/-- The colon-stripping step of `Instrument._get_instrument_name`. -/
def stripSampleName (name : String) : String :=
  let parts := name.splitOn ":"
  if parts.length = 4 then parts.headD "" ++ ":" ++ parts.getD 1 ""
  else if parts.length = 3 then parts.headD ""
  else parts.headD name

/-- Python's `dict.fromkeys`: order-preserving de-duplication. -/
def dedupKeepFirst (seen : List String) : List String → List String
  | [] => []
  | x :: xs =>
    if x ∈ seen then dedupKeepFirst seen xs
    else x :: dedupKeepFirst (x :: seen) xs

/-- Python's `Instrument._get_instrument_name`: strip the non-empty sample names;
a single distinct stripped name wins, otherwise all the sample names are
joined with ampersands. (The source also computes `counts` and
`shared_names`, but they feed only a commented-out branch.) -/
def getInstrumentName (sampleNames : List String) : String :=
  let strippedNames := (sampleNames.filter (fun n => n ≠ "")).map stripSampleName
  if strippedNames = [] then ""
  else
    let uniqueStripped := dedupKeepFirst [] strippedNames
    if uniqueStripped.length = 1 then uniqueStripped.headD ""
    else String.intercalate " & " sampleNames

/-- The unpacked fields of `'>4B 1I 1I1f 1I1f 1I1f'`. -/
structure InstFields where
  is_relocated : Nat
  key_region_low : Nat
  key_region_high : Nat
  decay_index : Nat
  envelope_offset : Nat
  low_sample_offset : Nat
  low_sample_tuning : Nat
  prim_sample_offset : Nat
  prim_sample_tuning : Nat
  high_sample_offset : Nat
  high_sample_tuning : Nat
deriving DecidableEq

/-- Python's `struct.unpack('>4B 1I 1I1f 1I1f 1I1f', bank_data[off:off+0x20])`. -/
def instUnpack (data : Bytes) (off : Nat) : Option InstFields :=
  match exactSlice data off 0x20 with
  | some [b0, b1, b2, b3, e0, e1, e2, e3, l0, l1, l2, l3, m0, m1, m2, m3,
          p0, p1, p2, p3, q0, q1, q2, q3, h0, h1, h2, h3, g0, g1, g2, g3] =>
    some { is_relocated := b0, key_region_low := b1, key_region_high := b2,
           decay_index := b3, envelope_offset := beNat [e0, e1, e2, e3],
           low_sample_offset := beNat [l0, l1, l2, l3],
           low_sample_tuning := beNat [m0, m1, m2, m3],
           prim_sample_offset := beNat [p0, p1, p2, p3],
           prim_sample_tuning := beNat [q0, q1, q2, q3],
           high_sample_offset := beNat [h0, h1, h2, h3],
           high_sample_tuning := beNat [g0, g1, g2, g3] }
  | _ => none

/-- Python's `Instrument.from_bytes`: fatal checks (`is_relocated == 0`;
`not (low_sample_offset == 0 and low_sample_tuning == 0.0) or key_region_low == 0`;
the mirror check for the high sample against 127); the envelope and each
of the three samples are decoded through the registries only when their
pointer is nonzero (low, then primary, then high); the instrument name is
derived from the sample names. -/
def Instrument.fromBytes (ctx : Ctx) (idx : Int) (off : Nat) (data : Bytes)
    (eReg : Registry Envelope) (sReg : Registry Sample)
    (lReg : Registry AdpcmLoop) (bReg : Registry AdpcmBook) :
    Option (Instrument × Registry Envelope × Registry Sample ×
            Registry AdpcmLoop × Registry AdpcmBook) :=
  match instUnpack data off with
  | none => none
  | some f =>
    if f.is_relocated = 0 then
      if (!(f.low_sample_offset == 0 && f32IsZero f.low_sample_tuning) ||
          f.key_region_low == 0) &&
         (!(f.high_sample_offset == 0 && f32IsZero f.high_sample_tuning) ||
          f.key_region_high == 127) then
        match (if f.envelope_offset ≠ 0 then
                (Envelope.fromBytes f.envelope_offset data eReg).map
                  (fun p => (some p.1, p.2))
              else some (none, eReg)) with
        | none => none
        | some (env, eReg1) =>
          match (if f.low_sample_offset ≠ 0 then
                  (Sample.fromBytes ctx f.low_sample_offset data sReg lReg bReg).map
                    (fun p => (some p.1, p.2.1, p.2.2.1, p.2.2.2))
                else some (none, sReg, lReg, bReg)) with
          | none => none
          | some (low, sReg1, lReg1, bReg1) =>
            match (if f.prim_sample_offset ≠ 0 then
                    (Sample.fromBytes ctx f.prim_sample_offset data sReg1 lReg1 bReg1).map
                      (fun p => (some p.1, p.2.1, p.2.2.1, p.2.2.2))
                  else some (none, sReg1, lReg1, bReg1)) with
            | none => none
            | some (prim, sReg2, lReg2, bReg2) =>
              match (if f.high_sample_offset ≠ 0 then
                      (Sample.fromBytes ctx f.high_sample_offset data sReg2 lReg2 bReg2).map
                        (fun p => (some p.1, p.2.1, p.2.2.1, p.2.2.2))
                    else some (none, sReg2, lReg2, bReg2)) with
              | none => none
              | some (high, sReg3, lReg3, bReg3) =>
                let sampleNames :=
                  [(low.map Sample.name).getD "", (prim.map Sample.name).getD "",
                   (high.map Sample.name).getD ""]
                let instName := getInstrumentName sampleNames
                let i : Instrument :=
                  { Instrument.init with
                    name := if instName ≠ "" ∧ instName ≠ "Sample" then instName
                            else "Instrument",
                    offset := off, index := idx,
                    is_relocated := f.is_relocated,
                    key_region_low := f.key_region_low,
                    key_region_high := f.key_region_high,
                    decay_index := f.decay_index,
                    envelope_offset := f.envelope_offset,
                    low_sample_offset := f.low_sample_offset,
                    low_sample_tuning := f.low_sample_tuning,
                    prim_sample_offset := f.prim_sample_offset,
                    prim_sample_tuning := f.prim_sample_tuning,
                    high_sample_offset := f.high_sample_offset,
                    high_sample_tuning := f.high_sample_tuning,
                    envelope := env, low_sample := low, prim_sample := prim,
                    high_sample := high }
                some (i, eReg1, sReg3, lReg3, bReg3)
      else none
    else none

/-- Python's `Instrument.to_bytes`: pack `'>4B 1I 1I1f 1I1f 1I1f'`. -/
def Instrument.toBytes (i : Instrument) : Option Bytes := do
  let a ← packU8 i.is_relocated
  let b ← packU8 i.key_region_low
  let c ← packU8 i.key_region_high
  let d ← packU8 i.decay_index
  let e ← packU32 i.envelope_offset
  let f ← packU32 i.low_sample_offset
  let g ← packU32 i.low_sample_tuning
  let h ← packU32 i.prim_sample_offset
  let j ← packU32 i.prim_sample_tuning
  let k ← packU32 i.high_sample_offset
  let l ← packU32 i.high_sample_tuning
  some (a ++ b ++ c ++ d ++ e ++ f ++ g ++ h ++ j ++ k ++ l)

end Z64

namespace Z64

/-! ## Bankmeta (Audiobank.py) -/

structure Bankmeta where
  address : Nat
  size : Nat
  sample_medium : Nat
  seq_player : Nat
  table_id : Nat
  font_id : Nat
  num_instruments : Nat
  num_drums : Nat
  num_effects : Nat
deriving DecidableEq

/-- Field defaults of `Bankmeta.__init__`. -/
def Bankmeta.init : Bankmeta :=
  { address := 0, size := 0, sample_medium := 2, seq_player := 2, table_id := 1,
    font_id := 255, num_instruments := 16, num_drums := 64, num_effects := 0 }

/-- Python's `Bankmeta.from_bytes`: `struct.unpack('>6B1H', data[:0x08])`; the
address and size fields are left at their defaults. -/
def Bankmeta.fromBytes (data : Bytes) : Option Bankmeta :=
  match exactSlice data 0 0x08 with
  | some [b0, b1, b2, b3, b4, b5, h0, h1] =>
    some { Bankmeta.init with
           sample_medium := b0, seq_player := b1, table_id := b2, font_id := b3,
           num_instruments := b4, num_drums := b5, num_effects := h0 * 256 + h1 }
  | _ => none

/-- Python's `Bankmeta.to_bytes`: `struct.pack('>6B1H', ...)`; the address and size
fields are not written. -/
def Bankmeta.toBytes (m : Bankmeta) : Option Bytes := do
  let a ← packU8 m.sample_medium
  let b ← packU8 m.seq_player
  let c ← packU8 m.table_id
  let d ← packU8 m.font_id
  let e ← packU8 m.num_instruments
  let f ← packU8 m.num_drums
  let g ← packU16 m.num_effects
  some (a ++ b ++ c ++ d ++ e ++ f ++ g)

/-! ## The decode traversal (Audiobank.from_bytes) -/

/-- The four per-bank registries threaded through one decode. -/
structure RegState where
  env : Registry Envelope
  smp : Registry Sample
  lb : Registry AdpcmLoop
  cb : Registry AdpcmBook
deriving DecidableEq

def RegState.init : RegState := ⟨[], [], [], []⟩

/-- The `# Create drums` loop: walk the drum pointer table in order, a
zero slot stays `None` and does not advance the valid-drum counter. -/
def decodeDrumList (ctx : Ctx) (data : Bytes) :
    List Nat → Int → RegState → Option (List (Option Drum) × RegState)
  | [], _, st => some ([], st)
  | addr :: rest, validIdx, st =>
    if addr = 0 then
      match decodeDrumList ctx data rest validIdx st with
      | none => none
      | some (ds, st1) => some (none :: ds, st1)
    else
      match Drum.fromBytes ctx validIdx addr data st.env st.smp st.lb st.cb with
      | none => none
      | some (d, e1, s1, l1, b1) =>
        match decodeDrumList ctx data rest (validIdx + 1) ⟨e1, s1, l1, b1⟩ with
        | none => none
        | some (ds, st1) => some (some d :: ds, st1)

/-- The `# Create effects` loop: `num_effects` 8-byte records starting at
the effect-list offset; an all-zero record stays `None`; the effect index
is the table position. -/
def decodeEffectList (ctx : Ctx) (data : Bytes) (sfxOff : Nat) :
    Nat → Nat → RegState → Option (List (Option SoundEffect) × RegState)
  | 0, _, st => some ([], st)
  | n + 1, i, st =>
    let off := sfxOff + 8 * i
    let chunk := pySlice data off (off + 8)
    if chunk = List.replicate 8 0 then
      match decodeEffectList ctx data sfxOff n (i + 1) st with
      | none => none
      | some (es, st1) => some (none :: es, st1)
    else
      match SoundEffect.fromBytes ctx (i : Int) off data st.smp st.lb st.cb with
      | none => none
      | some (e, s1, l1, b1) =>
        match decodeEffectList ctx data sfxOff n (i + 1) ⟨st.env, s1, l1, b1⟩ with
        | none => none
        | some (es, st1) => some (some e :: es, st1)

/-- The `# Create instruments` loop: walk the instrument pointer table in
order, a zero slot stays `None` and does not advance the valid counter. -/
def decodeInstList (ctx : Ctx) (data : Bytes) :
    List Nat → Int → RegState → Option (List (Option Instrument) × RegState)
  | [], _, st => some ([], st)
  | addr :: rest, validIdx, st =>
    if addr = 0 then
      match decodeInstList ctx data rest validIdx st with
      | none => none
      | some (is_, st1) => some (none :: is_, st1)
    else
      match Instrument.fromBytes ctx validIdx addr data st.env st.smp st.lb st.cb with
      | none => none
      | some (ins, e1, s1, l1, b1) =>
        match decodeInstList ctx data rest (validIdx + 1) ⟨e1, s1, l1, b1⟩ with
        | none => none
        | some (is_, st1) => some (some ins :: is_, st1)

/-! ## Audiobank (Audiobank.py) -/

structure Audiobank where
  bankmeta : Bankmeta
  drumlist_offset : Nat
  sfxlist_offset : Nat
  drum_offsets : List Nat
  effect_offsets : List Nat
  instrument_offsets : List Nat
  instrument_index_map : List Int
  drum_index_map : List Int
  drums : List (Option Drum)
  effects : List (Option SoundEffect)
  instruments : List (Option Instrument)
  envelope_registry : Registry Envelope
  sample_registry : Registry Sample
  loopbook_registry : Registry AdpcmLoop
  codebook_registry : Registry AdpcmBook
deriving DecidableEq

/-- Field defaults of `Audiobank.__init__` (the source initialises
`bankmeta` and the two header offsets to `None`; they are populated by
every constructor path before use). -/
def Audiobank.init : Audiobank :=
  { bankmeta := Bankmeta.init, drumlist_offset := 0, sfxlist_offset := 0,
    drum_offsets := [], effect_offsets := [], instrument_offsets := [],
    instrument_index_map := [], drum_index_map := [], drums := [], effects := [],
    instruments := [], envelope_registry := [], sample_registry := [],
    loopbook_registry := [], codebook_registry := [] }

/-- Python's `Audiobank.from_bytes`: read the two header pointers, then decode the
aggregates in the source's traversal order — drums, then effects, then
instruments, each in table order — threading the four registries.
The drum and instrument pointer tables are read with the truncating
`int.from_bytes`; the index maps are left empty (they are populated only
by the XML/YAML import paths). -/
def Audiobank.fromBytes (ctx : Ctx) (bankmeta : Bankmeta) (data : Bytes) :
    Option Audiobank :=
  match exactSlice data 0 0x08 with
  | none => none
  | some hdr =>
    let dlOff := beNat (hdr.take 4)
    let sfxOff := beNat (pySlice hdr 4 8)
    let drumOffsets := (List.range bankmeta.num_drums).map
      (fun i => readU32t data (dlOff + 4 * i))
    match decodeDrumList ctx data drumOffsets 0 RegState.init with
    | none => none
    | some (drums, st1) =>
      match decodeEffectList ctx data sfxOff bankmeta.num_effects 0 st1 with
      | none => none
      | some (effects, st2) =>
        let instOffsets := (List.range bankmeta.num_instruments).map
          (fun i => readU32t data (0x08 + 4 * i))
        match decodeInstList ctx data instOffsets 0 st2 with
        | none => none
        | some (insts, st3) =>
          some { Audiobank.init with
                 bankmeta := bankmeta, drumlist_offset := dlOff,
                 sfxlist_offset := sfxOff, drum_offsets := drumOffsets,
                 instrument_offsets := instOffsets, drums := drums,
                 effects := effects, instruments := insts,
                 envelope_registry := st3.env, sample_registry := st3.smp,
                 loopbook_registry := st3.lb, codebook_registry := st3.cb }

/-- Modelled from the spec: the traversal order the specification asserts
for `Audiobank.from_bytes` — "effects, then drums, then instruments, each
visited in table order" — reusing the table walks of the embedding, so
that the two orders can be compared. -/
def effectsFirstDecode (ctx : Ctx) (bankmeta : Bankmeta) (data : Bytes) :
    Option Audiobank :=
  match exactSlice data 0 0x08 with
  | none => none
  | some hdr =>
    let dlOff := beNat (hdr.take 4)
    let sfxOff := beNat (pySlice hdr 4 8)
    match decodeEffectList ctx data sfxOff bankmeta.num_effects 0 RegState.init with
    | none => none
    | some (effects, st1) =>
      let drumOffsets := (List.range bankmeta.num_drums).map
        (fun i => readU32t data (dlOff + 4 * i))
      match decodeDrumList ctx data drumOffsets 0 st1 with
      | none => none
      | some (drums, st2) =>
        let instOffsets := (List.range bankmeta.num_instruments).map
          (fun i => readU32t data (0x08 + 4 * i))
        match decodeInstList ctx data instOffsets 0 st2 with
        | none => none
        | some (insts, st3) =>
          some { Audiobank.init with
                 bankmeta := bankmeta, drumlist_offset := dlOff,
                 sfxlist_offset := sfxOff, drum_offsets := drumOffsets,
                 instrument_offsets := instOffsets, drums := drums,
                 effects := effects, instruments := insts,
                 envelope_registry := st3.env, sample_registry := st3.smp,
                 loopbook_registry := st3.lb, codebook_registry := st3.cb }

end Z64

namespace Z64

/-! ## The encoder (Audiobank.to_bytes / update_internal_offsets)

Pass 1 lays the categories out in the source's fixed order — ABBANK
table, DRUMLIST table, instruments, drums, samples, envelopes,
loopbooks, codebooks — and records every assigned offset.  The source
reassigns each entity's `offset` attribute in place; entity attributes
alias their registry entries (both were the same Python object at decode
time, with the registry key equal to the decode-time `offset` field), so
the reassigned offsets are recovered here through key maps built from
the registries.  A graph whose child snapshots are not present in the
registries (impossible for a decoded graph) fails instead. -/

/-- Python's `bytearray` slice assignment `buf[off:off+len(d)] = d`
(appending when the range lies past the end, exactly like Python). -/
def writeAt (buf : Bytes) (off : Nat) (d : Bytes) : Bytes :=
  buf.take off ++ d ++ buf.drop (off + d.length)

/-- Fold a list of (offset, data) writes over a buffer. -/
def writeAtAll (buf : Bytes) (items : List (Nat × Bytes)) : Bytes :=
  items.foldl (fun b p => writeAt b p.1 p.2) buf

/-- Offsets of consecutively laid out blocks of the given sizes. -/
def cumOffsets (start : Nat) : List Nat → List Nat
  | [] => []
  | s :: rest => start :: cumOffsets (start + s) rest

/-- The two pointer-table patch loops of `Audiobank.to_bytes`: slot `i`
of the table gets the assigned offset of entity `index`, skipped when
`index` is `-1` or out of range (the `is not None` part of the source
guard is vacuous here: the allocation pass has already failed on a `None`
slot). `base` is 8 for the ABBANK table, 0 for the DRUMLIST table. -/
def patchPtrTable (base : Nat) (offs : List Nat) :
    Bytes → Nat → List Int → Option Bytes
  | tbl, _, [] => some tbl
  | tbl, i, idx :: rest =>
    if idx ≠ -1 ∧ 0 ≤ idx ∧ idx.toNat < offs.length then
      match packU32 (offs.getD idx.toNat 0) with
      | none => none
      | some p => patchPtrTable base offs (writeAt tbl (base + 4 * i) p) (i + 1) rest
    else patchPtrTable base offs tbl (i + 1) rest

/-- The instrument stanza of `update_internal_offsets`: each present
child's freshly assigned offset, recovered through the key maps. -/
def updInstrumentOffsets (envMap smpMap : Registry Nat) (i : Instrument) :
    Option Instrument := do
  let i1 ← match i.envelope with
    | none => some i
    | some e => (regFind envMap e.offset).map (fun o => { i with envelope_offset := o })
  let i2 ← match i1.low_sample with
    | none => some i1
    | some s => (regFind smpMap s.offset).map (fun o => { i1 with low_sample_offset := o })
  let i3 ← match i2.prim_sample with
    | none => some i2
    | some s => (regFind smpMap s.offset).map (fun o => { i2 with prim_sample_offset := o })
  match i3.high_sample with
  | none => some i3
  | some s => (regFind smpMap s.offset).map (fun o => { i3 with high_sample_offset := o })

/-- The drum stanza of `update_internal_offsets`. -/
def updDrumOffsets (envMap smpMap : Registry Nat) (d : Drum) : Option Drum := do
  let d1 ← match d.sample with
    | none => some d
    | some s => (regFind smpMap s.offset).map (fun o => { d with sample_offset := o })
  match d1.envelope with
  | none => some d1
  | some e => (regFind envMap e.offset).map (fun o => { d1 with envelope_offset := o })

/-- The effect stanza of `update_internal_offsets`. -/
def updEffectOffsets (smpMap : Registry Nat) (e : SoundEffect) : Option SoundEffect :=
  match e.sample with
  | none => some e
  | some s => (regFind smpMap s.offset).map (fun o => { e with sample_offset := o })

/-- The sample stanza of `update_internal_offsets`. -/
def updSampleOffsets (lbMap cbMap : Registry Nat) (s : Sample) : Option Sample := do
  let s1 ← match s.loopbook with
    | none => some s
    | some l => (regFind lbMap l.offset).map (fun o => { s with loopbook_offset := o })
  match s1.codebook with
  | none => some s1
  | some c => (regFind cbMap c.offset).map (fun o => { s1 with codebook_offset := o })

/-- Per-registry 16-byte-aligned serialized sizes
(`align_to_16(len(entity.to_bytes()))`). -/
def entitySizes {α : Type} (toB : α → Option Bytes) (reg : Registry α) :
    Option (List Nat) :=
  reg.mapM (fun p => (toB p.2).map (fun b => align_to_16 b.length))

/-- The results of the allocation pass of `Audiobank.to_bytes` (its
sections up to `total_size`): category order ABBANK table, DRUMLIST
table, instruments, drums, samples, envelopes, loopbooks, codebooks. -/
structure Pass1 where
  abbank1 : Bytes
  drumlist0 : Bytes
  drumlist_offset : Nat
  instruments : List Instrument
  drums : List Drum
  instOffs : List Nat
  drumOffs : List Nat
  sampleOffs : List Nat
  envOffs : List Nat
  lbOffs : List Nat
  cbOffs : List Nat
  total_size : Nat

/-- Python's `Audiobank.to_bytes`, allocation pass.  The ABBANK table is `'>2I'`
plus one placeholder u32 per index-map entry; its first word is
immediately patched to the DRUMLIST offset; assigning `instrument.offset`
(`drum.offset`) raises on a `None` slot. -/
def Audiobank.pass1 (g : Audiobank) : Option Pass1 := do
  let abbank0 : Bytes := beBytes 4 0 ++ beBytes 4 0 ++
    (g.instrument_index_map.map (fun _ => beBytes 4 0)).flatten
  let abbank_size := align_to_16 abbank0.length
  let drumlist0 := (g.drum_index_map.map (fun _ => beBytes 4 0)).flatten
  let drumlist_size := align_to_16 drumlist0.length
  let drumlist_offset := abbank_size
  let dlo ← packU32 drumlist_offset
  let abbank1 := writeAt abbank0 0 dlo
  let instruments ← g.instruments.mapM id
  let instruments_offset := abbank_size + drumlist_size
  let instOffs := (List.range instruments.length).map
    (fun i => instruments_offset + 0x20 * i)
  let drums ← g.drums.mapM id
  let drums_offset := instruments_offset + 0x20 * instruments.length
  let drumOffs := (List.range drums.length).map (fun i => drums_offset + 0x10 * i)
  let samples_offset := drums_offset + 0x10 * drums.length
  let sampleOffs := (List.range g.sample_registry.length).map
    (fun i => samples_offset + 0x10 * i)
  let samples_end := samples_offset + 0x10 * g.sample_registry.length
  let envSizes ← entitySizes Envelope.toBytes g.envelope_registry
  let envOffs := cumOffsets samples_end envSizes
  let env_end := samples_end + envSizes.sum
  let lbSizes ← entitySizes AdpcmLoop.toBytes g.loopbook_registry
  let lbOffs := cumOffsets env_end lbSizes
  let lb_end := env_end + lbSizes.sum
  let cbSizes ← entitySizes AdpcmBook.toBytes g.codebook_registry
  let cbOffs := cumOffsets lb_end cbSizes
  let total_size := align_to_16 (lb_end + cbSizes.sum)
  some { abbank1 := abbank1, drumlist0 := drumlist0,
         drumlist_offset := drumlist_offset, instruments := instruments,
         drums := drums, instOffs := instOffs, drumOffs := drumOffs,
         sampleOffs := sampleOffs, envOffs := envOffs, lbOffs := lbOffs,
         cbOffs := cbOffs, total_size := total_size }

/-- Python's `update_internal_offsets()`, run between the allocation pass and the
write pass: the instruments, drums and samples with their pointer fields
patched to the pass-1 offsets.  The updated effects are never written to
the output, but `for effect in self.effects:` has no None guard, so a
`None` effect slot raises. -/
def Audiobank.updatePass (g : Audiobank) (p : Pass1) :
    Option (List Instrument × List Drum × Registry Sample) := do
  let envMap := (regKeys g.envelope_registry).zip p.envOffs
  let smpMap := (regKeys g.sample_registry).zip p.sampleOffs
  let lbMap := (regKeys g.loopbook_registry).zip p.lbOffs
  let cbMap := (regKeys g.codebook_registry).zip p.cbOffs
  let updatedInsts ← p.instruments.mapM (updInstrumentOffsets envMap smpMap)
  let updatedDrums ← p.drums.mapM (updDrumOffsets envMap smpMap)
  let effectsList ← g.effects.mapM id
  let _ ← effectsList.mapM (updEffectOffsets smpMap)
  let updatedSamples ← g.sample_registry.mapM
    (fun q => (updSampleOffsets lbMap cbMap q.2).map (fun s => (q.1, s)))
  some (updatedInsts, updatedDrums, updatedSamples)

/-- The `# WRITE TO BINARY` section of `Audiobank.to_bytes`: zero buffer
of `total_size`, padded table splices, the pointer-table patch loops,
unpadded table re-splices, then every entity at its assigned offset. -/
def Audiobank.writePass (g : Audiobank) (p : Pass1)
    (updatedInsts : List Instrument) (updatedDrums : List Drum)
    (updatedSamples : Registry Sample) : Option Bytes := do
  let buf0 : Bytes := List.replicate p.total_size 0
  let buf1 := writeAt buf0 0 (add_padding_to_16 p.abbank1)
  let buf2 := writeAt buf1 p.drumlist_offset (add_padding_to_16 p.drumlist0)
  let abbank2 ← patchPtrTable 8 p.instOffs p.abbank1 0 g.instrument_index_map
  let drumlist1 ← patchPtrTable 0 p.drumOffs p.drumlist0 0 g.drum_index_map
  let buf3 := writeAt buf2 0 abbank2
  let buf4 := writeAt buf3 p.drumlist_offset drumlist1
  let instBytes ← updatedInsts.mapM Instrument.toBytes
  let buf5 := writeAtAll buf4 (p.instOffs.zip instBytes)
  let drumBytes ← updatedDrums.mapM Drum.toBytes
  let buf6 := writeAtAll buf5 (p.drumOffs.zip drumBytes)
  let smpBytes ← updatedSamples.mapM (fun q => Sample.toBytes q.2)
  let buf7 := writeAtAll buf6 (p.sampleOffs.zip smpBytes)
  let envBytes ← g.envelope_registry.mapM (fun q => q.2.toBytes)
  let buf8 := writeAtAll buf7 (p.envOffs.zip envBytes)
  let lbBytes ← g.loopbook_registry.mapM (fun q => q.2.toBytes)
  let buf9 := writeAtAll buf8 (p.lbOffs.zip lbBytes)
  let cbBytes ← g.codebook_registry.mapM (fun q => q.2.toBytes)
  some (writeAtAll buf9 (p.cbOffs.zip cbBytes))

/-- Python's `Audiobank.to_bytes`: allocation pass, `update_internal_offsets()`,
write pass. -/
def Audiobank.toBytes (g : Audiobank) : Option Bytes := do
  let p ← g.pass1
  let (updatedInsts, updatedDrums, updatedSamples) ← g.updatePass p
  g.writePass p updatedInsts updatedDrums updatedSamples

/-! ## XML dictionary export (to_dict of Instrument.py and Drum.py)

A Python dict/list/str tree.  The `str()` of float32 tunings is
abstracted by `Ctx.floatStr`. -/

inductive DictVal where
  | str : String → DictVal
  | list : List DictVal → DictVal
  | dict : List (String × DictVal) → DictVal

/-- The inline ABSound dictionary built for each of the three sample
slots of `Instrument.to_dict`
(`str(self.<slot>_sample.index if self.<slot>_sample else -1)`). -/
def instSampleSlotDict (ctx : Ctx) (off tun : Nat) (child : Option Sample) : DictVal :=
  DictVal.dict [("datatype", DictVal.str "ABSound"), ("ispointer", DictVal.str "0"),
    ("value", DictVal.str "0"),
    ("struct", DictVal.dict [("name", DictVal.str "ABSound"),
      ("field", DictVal.list [
        DictVal.dict [("name", DictVal.str "Sample Pointer"),
          ("datatype", DictVal.str "uint32"), ("ispointer", DictVal.str "1"),
          ("ptrto", DictVal.str "ABSample"), ("isarray", DictVal.str "0"),
          ("meaning", DictVal.str "Ptr Sample"),
          ("value", DictVal.str (toString off)),
          ("index", DictVal.str (toString (match child with
            | some s => s.index
            | none => (-1 : Int))))],
        DictVal.dict [("name", DictVal.str "Sample Tuning"),
          ("datatype", DictVal.str "float32"), ("ispointer", DictVal.str "0"),
          ("isarray", DictVal.str "0"), ("meaning", DictVal.str "None"),
          ("value", DictVal.str (ctx.floatStr tun))]])])]

/-- Python's `Instrument.to_dict`: the envelope field reads
`str(self.envelope.index)` unconditionally, which raises
`AttributeError` (modelled `none`) when the envelope is absent; each
sample slot falls back to index `-1` when absent. -/
def Instrument.toDict (ctx : Ctx) (i : Instrument) : Option DictVal := do
  let envIdx ← i.envelope.map Envelope.index
  some (DictVal.dict [("address", DictVal.str (toString i.offset)),
    ("name", DictVal.str (i.name ++ " [" ++ toString i.index ++ "]")),
    ("struct", DictVal.dict [("name", DictVal.str "ABInstrument"),
      ("field", DictVal.list [
        DictVal.dict [("name", DictVal.str "Relocated (Bool)"),
          ("datatype", DictVal.str "uint8"), ("ispointer", DictVal.str "0"),
          ("isarray", DictVal.str "0"), ("meaning", DictVal.str "None"),
          ("value", DictVal.str (toString i.is_relocated))],
        DictVal.dict [("name", DictVal.str "Key Region Low (Max Range)"),
          ("datatype", DictVal.str "uint8"), ("ispointer", DictVal.str "0"),
          ("isarray", DictVal.str "0"), ("meaning", DictVal.str "None"),
          ("value", DictVal.str (toString i.key_region_low))],
        DictVal.dict [("name", DictVal.str "Key Region High (Min Range)"),
          ("datatype", DictVal.str "uint8"), ("ispointer", DictVal.str "0"),
          ("isarray", DictVal.str "0"), ("meaning", DictVal.str "None"),
          ("value", DictVal.str (toString i.key_region_high))],
        DictVal.dict [("name", DictVal.str "Decay Index"),
          ("datatype", DictVal.str "uint8"), ("ispointer", DictVal.str "0"),
          ("isarray", DictVal.str "0"), ("meaning", DictVal.str "None"),
          ("value", DictVal.str (toString i.decay_index))],
        DictVal.dict [("name", DictVal.str "Envelope Pointer"),
          ("datatype", DictVal.str "uint32"), ("ispointer", DictVal.str "1"),
          ("ptrto", DictVal.str "ABEnvelope"), ("isarray", DictVal.str "0"),
          ("meaning", DictVal.str "Ptr Envelope"),
          ("value", DictVal.str (toString i.envelope_offset)),
          ("index", DictVal.str (toString envIdx))],
        DictVal.dict [("name", DictVal.str "Sample Pointer Array"),
          ("datatype", DictVal.str "ABSound"), ("ispointer", DictVal.str "0"),
          ("isarray", DictVal.str "1"), ("arraylenfixed", DictVal.str "3"),
          ("meaning", DictVal.str "List of 3 Sounds for Splits"),
          ("element", DictVal.list [
            instSampleSlotDict ctx i.low_sample_offset i.low_sample_tuning i.low_sample,
            instSampleSlotDict ctx i.prim_sample_offset i.prim_sample_tuning i.prim_sample,
            instSampleSlotDict ctx i.high_sample_offset i.high_sample_tuning i.high_sample])]])])])

/-- Python's `Drum.to_dict`: reads `str(self.sample.index)` and
`str(self.envelope.index)` unconditionally; either being absent raises
`AttributeError` (modelled `none`). -/
def Drum.toDict (ctx : Ctx) (d : Drum) : Option DictVal := do
  let smpIdx ← d.sample.map Sample.index
  let envIdx ← d.envelope.map Envelope.index
  some (DictVal.dict [("address", DictVal.str (toString d.offset)),
    ("name", DictVal.str (d.name ++ " [" ++ toString d.index ++ "]")),
    ("struct", DictVal.dict [("name", DictVal.str "ABDrum"),
      ("field", DictVal.list [
        DictVal.dict [("name", DictVal.str "Decay Index"),
          ("datatype", DictVal.str "uint8"), ("ispointer", DictVal.str "0"),
          ("isarray", DictVal.str "0"), ("meaning", DictVal.str "None"),
          ("value", DictVal.str (toString d.decay_index))],
        DictVal.dict [("name", DictVal.str "Pan"),
          ("datatype", DictVal.str "uint8"), ("ispointer", DictVal.str "0"),
          ("isarray", DictVal.str "0"), ("meaning", DictVal.str "None"),
          ("value", DictVal.str (toString d.pan))],
        DictVal.dict [("name", DictVal.str "Relocated (Bool)"),
          ("datatype", DictVal.str "uint8"), ("ispointer", DictVal.str "0"),
          ("isarray", DictVal.str "0"), ("meaning", DictVal.str "None"),
          ("value", DictVal.str (toString d.is_relocated))],
        DictVal.dict [("name", DictVal.str "Padding Byte"),
          ("datatype", DictVal.str "uint8"), ("ispointer", DictVal.str "0"),
          ("isarray", DictVal.str "0"), ("meaning", DictVal.str "None"),
          ("value", DictVal.str "0")],
        DictVal.dict [("name", DictVal.str "Drum Sound"),
          ("datatype", DictVal.str "ABSound"), ("ispointer", DictVal.str "0"),
          ("isarray", DictVal.str "0"), ("meaning", DictVal.str "Drum Sound"),
          ("struct", DictVal.dict [("name", DictVal.str "ABSound"),
            ("field", DictVal.list [
              DictVal.dict [("name", DictVal.str "Sample Pointer"),
                ("datatype", DictVal.str "uint32"), ("ispointer", DictVal.str "1"),
                ("ptrto", DictVal.str "ABSample"), ("isarray", DictVal.str "0"),
                ("meaning", DictVal.str "Ptr Sample"),
                ("value", DictVal.str (toString d.sample_offset)),
                ("index", DictVal.str (toString smpIdx))],
              DictVal.dict [("name", DictVal.str "Sample Tuning"),
                ("datatype", DictVal.str "float32"), ("ispointer", DictVal.str "0"),
                ("isarray", DictVal.str "0"), ("meaning", DictVal.str "None"),
                ("value", DictVal.str (ctx.floatStr d.sample_tuning))]])])],
        DictVal.dict [("name", DictVal.str "Envelope Pointer"),
          ("datatype", DictVal.str "uint32"), ("ispointer", DictVal.str "1"),
          ("ptrto", DictVal.str "ABEnvelope"), ("isarray", DictVal.str "0"),
          ("meaning", DictVal.str "Ptr Envelope"),
          ("value", DictVal.str (toString d.envelope_offset)),
          ("index", DictVal.str (toString envIdx))]])])])

end Z64

namespace Z64

/-! ## Registry well-formedness and growth predicates -/

/-- The entities of a registry, read in insertion order from position
`n`, carry exactly the indices `n, n+1, n+2, ...`. -/
def RegIdxFrom {α : Type} (idx : α → Int) : Nat → Registry α → Prop
  | _, [] => True
  | n, p :: rest => idx p.2 = (n : Int) ∧ RegIdxFrom idx (n + 1) rest

/-- Contiguous 0-based indices in insertion order. -/
def RegWF {α : Type} (r : Registry α) (idx : α → Int) : Prop := RegIdxFrom idx 0 r

/-- One registry grows from another by appending entries at the end
(first-encounter order is preserved). -/
def RegExt {α : Type} (r r' : Registry α) : Prop :=
  ∃ t, regKeys r' = regKeys r ++ t

/-- All four registries grow append-only. -/
def StExt (s s' : RegState) : Prop :=
  RegExt s.env s'.env ∧ RegExt s.smp s'.smp ∧ RegExt s.lb s'.lb ∧ RegExt s.cb s'.cb

/-- All four registries carry contiguous 0-based indices. -/
def StWF (st : RegState) : Prop :=
  RegWF st.env Envelope.index ∧ RegWF st.smp Sample.index ∧
  RegWF st.lb AdpcmLoop.index ∧ RegWF st.cb AdpcmBook.index

/-! ## Concrete witness data

`ctxW` is a front-end context with no sample-name table (the converter
run before any names are loaded). -/

def ctxW : Ctx :=
  { game := Game.oot, audiotableId := 0, sampleNames := fun _ => none,
    floatStr := fun _ => "" }

/-- Bankmeta of a one-instrument bank (no drums, no effects). -/
def m1 : Bankmeta :=
  { Bankmeta.init with num_instruments := 1, num_drums := 0, num_effects := 0 }

/-- A 44-byte bank for `m1`: header (drum-list pointer 0, effect-list
pointer 0), a one-slot instrument table pointing at offset 12, and one
instrument there with every pointer absent (relocated 0, key regions
0/127, decay 255, zero envelope and sample pointers with zero tunings). -/
def B1 : Bytes :=
  [0, 0, 0, 0, 0, 0, 0, 0] ++ [0, 0, 0, 12] ++
  ([0, 0, 127, 255] ++ List.replicate 28 0)

/-- The graph decoded from `B1`. -/
def gB1 : Audiobank := (Audiobank.fromBytes ctxW m1 B1).getD Audiobank.init

/-- The buffer re-encoded from that graph. -/
def outB1 : Bytes := (Audiobank.toBytes gB1).getD []

/-- The graph decoded from the re-encoded buffer. -/
def gB1' : Audiobank := (Audiobank.fromBytes ctxW m1 outB1).getD Audiobank.init

/-- The single instrument of `gB1`. -/
def instB1 : Instrument := (gB1.instruments.headD none).getD Instrument.init

/-- Bankmeta of a bank with one drum and one effect (no instruments). -/
def m2 : Bankmeta :=
  { Bankmeta.init with num_instruments := 0, num_drums := 1, num_effects := 1 }

/-- A 232-byte bank for `m2`: drum list at 8 (one drum at 20), effect
list at 12 (one effect whose sample sits at 100), the drum's sample at
60; the two samples share the loopbook at 140 (loop count 0) and the
codebook at 160 (order 2, two predictor arrays).  A full decode of this
bank raises inside the drum's fresh `Sample.from_bytes`; the loopbook,
codebook and drum records are used for direct leaf-level calls. -/
def B2 : Bytes :=
  [0, 0, 0, 8] ++ [0, 0, 0, 12] ++ [0, 0, 0, 20] ++
  [0, 0, 0, 100, 0, 0, 0, 0] ++
  ([255, 64, 0, 0] ++ [0, 0, 0, 60] ++ [0, 0, 0, 0] ++ [0, 0, 0, 0]) ++
  List.replicate 24 0 ++
  ([0, 0, 0, 0] ++ [0, 0, 0, 0] ++ [0, 0, 0, 140] ++ [0, 0, 0, 160]) ++
  List.replicate 24 0 ++
  ([0, 0, 0, 0] ++ [0, 0, 0, 0] ++ [0, 0, 0, 140] ++ [0, 0, 0, 160]) ++
  List.replicate 24 0 ++
  List.replicate 16 0 ++
  List.replicate 4 0 ++
  ([0, 0, 0, 2] ++ [0, 0, 0, 2]) ++
  List.replicate 64 0

/-- Bankmeta of a two-instrument bank (no drums, no effects). -/
def m4 : Bankmeta :=
  { Bankmeta.init with num_instruments := 2, num_drums := 0, num_effects := 0 }

/-- A 112-byte bank for `m4`: header (both list pointers 0), a two-slot
instrument table pointing at 16 and 48, two instruments whose sample
pointers are all absent (key regions 0/127, zero tunings) with envelope
pointers 80 and 96, and two distinct vanilla envelopes there (the first
and second entries of `VANILLA_ENVELOPES`, so the name search succeeds). -/
def B4 : Bytes :=
  [0, 0, 0, 0, 0, 0, 0, 0] ++ [0, 0, 0, 16] ++ [0, 0, 0, 48] ++
  ([0, 0, 127, 255] ++ [0, 0, 0, 80] ++ List.replicate 24 0) ++
  ([0, 0, 127, 255] ++ [0, 0, 0, 96] ++ List.replicate 24 0) ++
  [0, 1, 127, 188, 0, 1, 127, 188, 127, 188, 127, 188, 255, 255, 0, 0] ++
  [0, 1, 0, 0, 0, 30, 127, 188, 2, 178, 0, 0, 255, 255, 0, 0]

/-- The graph decoded from `B4` (two present instruments, two envelopes
in the envelope registry at indices 0 and 1). -/
def gB4 : Audiobank := (Audiobank.fromBytes ctxW m4 B4).getD Audiobank.init

/-- Bankmeta of the effect-only bank object `gE`. -/
def m8 : Bankmeta :=
  { Bankmeta.init with num_instruments := 0, num_drums := 0, num_effects := 1 }

/-- A concrete present effect: sample pointer 96, tuning bits
0x3F800000, no child sample object. -/
def effE : SoundEffect :=
  { SoundEffect.init with
    index := 0, sample_offset := 96, sample_tuning := 0x3F800000 }

/-- A directly constructed bank object holding one present effect — the
object state the text-form import paths carry into `to_bytes` (the
binary decoder itself cannot reach `to_bytes` with a present effect,
since decoding one always raises inside `Sample.from_bytes`): no
instruments, no drums, empty index maps and registries, and the single
effect `effE`. -/
def gE : Audiobank :=
  { Audiobank.init with bankmeta := m8, effects := [some effE] }

/-- The buffer `Audiobank.to_bytes` produces for `gE`. -/
def outE : Bytes := (Audiobank.toBytes gE).getD []

/-- A 32-byte instrument record whose low sample pointer is 0 while its
low tuning is 1.0 (bit pattern 0x3F800000) and whose key-region low is
5; the high sample is absent with zero tuning and key-region high 127. -/
def B6 : Bytes :=
  [0, 5, 127, 255] ++ [0, 0, 0, 0] ++ [0, 0, 0, 0] ++ [0x3F, 0x80, 0, 0] ++
  List.replicate 16 0

/-- The instrument decoded from `B6` (with empty registries). -/
def instB6 : Instrument :=
  ((Instrument.fromBytes ctxW 0 0 B6 [] [] [] []).getD
    (Instrument.init, [], [], [], [])).1

/-- A codebook declaring 4 predictor arrays over a span holding only 2
(8-byte header + 64 coefficient bytes). -/
def B7 : Bytes := [0, 0, 0, 2, 0, 0, 0, 4] ++ List.replicate 64 0

/-- A 16-byte drum record whose sample pointer field is 0. -/
def B9 : Bytes := [255, 64, 0, 0] ++ List.replicate 12 0

/-- An envelope buffer: the byte form of the point list
(1, 32700), (1, 32700), (32700, 32700), (-1, 0). -/
def envData : Bytes :=
  [0, 1, 127, 188, 0, 1, 127, 188, 127, 188, 127, 188, 255, 255, 0, 0]

/-- The envelope decoded from `envData` at offset 0 with an empty
registry, and the registry it leaves. -/
def envW : Envelope × Registry Envelope :=
  (Envelope.fromBytes 0 envData []).getD (Envelope.init, [])

/-- The loopbook of `B2` decoded with an empty registry. -/
def lbW : AdpcmLoop × Registry AdpcmLoop :=
  (AdpcmLoop.fromBytes 140 B2 []).getD (AdpcmLoop.init, [])

/-- The codebook of `B2` decoded with an empty registry. -/
def cbW : AdpcmBook × Registry AdpcmBook :=
  (AdpcmBook.fromBytes 160 B2 []).getD (AdpcmBook.init, [])

/-- A concrete cached sample, seated in a sample registry the way the
source's `Sample.from_bytes` files one (keyed by its decode-time offset,
index 0) — a registry hit is the only way that function returns, since
every fresh decode raises on the enum member lookup. -/
def smpWv : Sample := { Sample.init with offset := 60, index := 0 }

/-- A sample registry holding `smpWv` at key 60. -/
def sRegW : Registry Sample := [(60, smpWv)]

end Z64

namespace Z64

/-- The bankmeta decoded from the nine-byte record 1..9. -/
def mW : Bankmeta :=
  (Bankmeta.fromBytes [1, 2, 3, 4, 5, 6, 7, 8, 9]).getD Bankmeta.init

/-- The drum of `B2` (sample pointer 60, envelope pointer 0) decoded
against the pre-populated sample registry `sRegW`, so its sample decode
is a registry hit — the one sample path the source can execute. -/
def drumW : Drum × Registry Envelope × Registry Sample ×
    Registry AdpcmLoop × Registry AdpcmBook :=
  (Drum.fromBytes ctxW 0 20 B2 [] sRegW [] []).getD (Drum.init, [], [], [], [])

end Z64

namespace Z64

/-! # Claim theorems -/

set_option maxRecDepth 16000

/-- C1: the binary round trip fails on the code.  `B1` decodes to a graph
with one present instrument; re-encoding it emits no instrument pointer
table entries (the index maps are only populated by the text-form import
paths), so decoding the re-encoded buffer with the same bankmeta yields a
graph whose only instrument slot is absent — not a graph equal
entity-for-entity to the first decode. -/
theorem C1_roundtrip_fails :
    Audiobank.fromBytes ctxW m1 B1 = some gB1 ∧
    gB1.instruments.map Option.isSome = [true] ∧
    Audiobank.toBytes gB1 = some outB1 ∧
    Audiobank.fromBytes ctxW m1 outB1 = some gB1' ∧
    gB1'.instruments = [none] ∧
    gB1.instruments ≠ gB1'.instruments :=
  ⟨rfl, rfl, rfl, rfl, rfl, by decide⟩

/-- C5: `B1` decodes successfully into a graph whose instrument has an
absent envelope (pointer 0), and `Instrument.to_dict` on that instrument
raises `AttributeError` (`str(self.envelope.index)` on `None`) instead of
emitting index -1. -/
theorem C5_absent_envelope_export_crashes :
    Audiobank.fromBytes ctxW m1 B1 = some gB1 ∧
    gB1.instruments = [some instB1] ∧
    instB1.envelope = none ∧
    instB1.envelope_offset = 0 ∧
    Instrument.toDict ctxW instB1 = none :=
  ⟨rfl, rfl, rfl, rfl, rfl⟩

/-- C6 counterexample: the record `B6` has a zero low-sample pointer
(absent low sample) with a nonzero low tuning and key-region low 5; the
decode succeeds because the source assertion only fires when the pointer
and the tuning are both zero, refuting "absent low sample implies
key-region-low equals 0". -/
theorem C6_keylow_counterexample :
    ¬ (∀ r, Instrument.fromBytes ctxW 0 0 B6 [] [] [] [] = some r →
        r.1.low_sample = none → r.1.key_region_low = 0) := by
  intro h
  exact absurd (h (instB6, [], [], [], []) rfl rfl) (by decide)

/-- C7: decoding `B7` — a codebook declaring 4 predictor arrays over a
span that holds only 2 — returns a codebook (predictor count 4, but only
2 arrays) instead of raising an inconsistent-count error. -/
theorem C7_truncated_codebook_accepted :
    (AdpcmBook.fromBytes 0 B7 []).map
      (fun p => (p.1.num_predictors, p.1.predictor_arrays.length)) =
      some (4, 2) := rfl

/-- C8 counterexample: encoding the directly constructed bank object `gE`
— which holds one present effect — leaves the effect-list pointer
(bytes 4..7) zero; only the drum-list pointer (bytes 0..3) is patched to
its allocation-pass offset 16.  No effect-list table is allocated at
all, so the effect-list pointer never receives an allocation-pass
offset. -/
theorem C8_effect_pointer_not_patched :
    Audiobank.toBytes gE = some outE ∧
    gE.effects.map Option.isSome = [true] ∧
    pySlice outE 0 4 = [0, 0, 0, 16] ∧
    pySlice outE 4 8 = [0, 0, 0, 0] :=
  ⟨rfl, rfl, rfl, rfl⟩

end Z64

namespace Z64

/-- C10: on any byte string of at least 8 proper bytes that `Bankmeta.from_bytes`
accepts, `Bankmeta.to_bytes` reproduces exactly the first 8 bytes (the
address and size fields are neither read from nor written to the 8-byte
form). -/
theorem C10_bankmeta_roundtrip (data : Bytes) (m : Bankmeta)
    (hb : ∀ b ∈ data, b < 256) (h : Bankmeta.fromBytes data = some m) :
    Bankmeta.toBytes m = some (data.take 8) := by
  unfold Bankmeta.fromBytes at h
  split at h
  case h_1 b0 b1 b2 b3 b4 b5 h0 h1 heq =>
    rw [Option.some_inj] at h
    subst h
    have hslice : data.take 8 = [b0, b1, b2, b3, b4, b5, h0, h1] := by
      simp only [exactSlice, pySlice] at heq
      split at heq
      · rw [Option.some_inj] at heq
        simpa using heq
      · exact absurd heq (by simp)
    have hmem : ∀ b ∈ [b0, b1, b2, b3, b4, b5, h0, h1], b < 256 := by
      intro b hbmem
      exact hb b (List.take_subset 8 data (hslice ▸ hbmem))
    have e0 : b0 < 256 := hmem b0 (by simp)
    have e1 : b1 < 256 := hmem b1 (by simp)
    have e2 : b2 < 256 := hmem b2 (by simp)
    have e3 : b3 < 256 := hmem b3 (by simp)
    have e4 : b4 < 256 := hmem b4 (by simp)
    have e5 : b5 < 256 := hmem b5 (by simp)
    have e6 : h0 < 256 := hmem h0 (by simp)
    have e7 : h1 < 256 := hmem h1 (by simp)
    have ediv : (h0 * 256 + h1) / 256 = h0 := by omega
    have emod : (h0 * 256 + h1) % 256 = h1 := by omega
    simp only [Bankmeta.toBytes, packU8, packU16, beBytes, hslice,
      if_pos e0, if_pos e1, if_pos e2, if_pos e3, if_pos e4, if_pos e5,
      if_pos (show h0 * 256 + h1 < 65536 by omega)]
    simp [Option.bind, ediv, emod, Nat.mod_eq_of_lt e6]
  case h_2 hne heq =>
    exact absurd h (by simp)

/-- Witness for C10 at the concrete nine-byte record 1..9. -/
theorem C10_witness :
    (∀ b ∈ ([1, 2, 3, 4, 5, 6, 7, 8, 9] : Bytes), b < 256) ∧
    Bankmeta.fromBytes [1, 2, 3, 4, 5, 6, 7, 8, 9] = some mW ∧
    Bankmeta.toBytes mW = some (([1, 2, 3, 4, 5, 6, 7, 8, 9] : Bytes).take 8) :=
  ⟨by decide, rfl,
   C10_bankmeta_roundtrip [1, 2, 3, 4, 5, 6, 7, 8, 9] mW (by decide) rfl⟩

end Z64

namespace Z64

/-- C6 as amended: an Instrument decode succeeds only when an absent low
sample **with zero tuning** implies key-region-low 0, and an absent high
sample **with zero tuning** implies key-region-high 127 (the source
assertions test the pointer and the tuning together, not the pointer
alone). -/
theorem C6_amended (ctx : Ctx) (idx : Int) (off : Nat) (data : Bytes)
    (eReg : Registry Envelope) (sReg : Registry Sample)
    (lReg : Registry AdpcmLoop) (bReg : Registry AdpcmBook)
    (r : Instrument × Registry Envelope × Registry Sample ×
         Registry AdpcmLoop × Registry AdpcmBook)
    (h : Instrument.fromBytes ctx idx off data eReg sReg lReg bReg = some r) :
    ((r.1.low_sample_offset = 0 ∧ f32IsZero r.1.low_sample_tuning = true) →
      r.1.key_region_low = 0) ∧
    ((r.1.high_sample_offset = 0 ∧ f32IsZero r.1.high_sample_tuning = true) →
      r.1.key_region_high = 127) := by
  unfold Instrument.fromBytes at h
  split at h
  case h_1 => exact absurd h (by simp)
  case h_2 f hunpack =>
  split at h
  case isFalse => exact absurd h (by simp)
  case isTrue hrel =>
  split at h
  case isFalse => exact absurd h (by simp)
  case isTrue hguard =>
  split at h
  case h_1 => exact absurd h (by simp)
  case h_2 env eReg1 henv =>
  split at h
  case h_1 => exact absurd h (by simp)
  case h_2 low sReg1 lReg1 bReg1 hlow =>
  split at h
  case h_1 => exact absurd h (by simp)
  case h_2 prim sReg2 lReg2 bReg2 hprim =>
  split at h
  case h_1 => exact absurd h (by simp)
  case h_2 high sReg3 lReg3 bReg3 hhigh =>
  rw [Option.some_inj] at h
  subst h
  simp only [Bool.and_eq_true, Bool.or_eq_true, Bool.not_eq_true',
    Bool.and_eq_false_iff, beq_iff_eq, beq_eq_false_iff_ne] at hguard
  constructor
  · intro hc
    rcases hguard.1 with hg | hg
    · rcases hg with hg | hg
      · exact absurd hc.1 hg
      · exact absurd hc.2 (by simpa using hg)
    · simpa using hg
  · intro hc
    rcases hguard.2 with hg | hg
    · rcases hg with hg | hg
      · exact absurd hc.1 hg
      · exact absurd hc.2 (by simpa using hg)
    · simpa using hg

/-- Witness for C6 at the decode of `B6` (both implications hold for the
returned instrument). -/
theorem C6_witness :
    ((instB6.low_sample_offset = 0 ∧ f32IsZero instB6.low_sample_tuning = true) →
      instB6.key_region_low = 0) ∧
    ((instB6.high_sample_offset = 0 ∧ f32IsZero instB6.high_sample_tuning = true) →
      instB6.key_region_high = 127) :=
  C6_amended ctxW 0 0 B6 [] [] [] [] (instB6, [], [], [], []) rfl

/-- C9: every Drum returned by `Drum.from_bytes` has a nonzero sample
pointer field, and whenever the unpacked sample pointer field is 0 the
decode raises (returns no Drum). -/
theorem C9_zero_sample_pointer :
    (∀ ctx idx off data eReg sReg lReg bReg
      (r : Drum × Registry Envelope × Registry Sample ×
           Registry AdpcmLoop × Registry AdpcmBook),
      Drum.fromBytes ctx idx off data eReg sReg lReg bReg = some r →
      r.1.sample_offset ≠ 0) ∧
    (∀ ctx idx off data eReg sReg lReg bReg decay pan reloc tuning envOff,
      drumUnpack data off = some (decay, pan, reloc, 0, tuning, envOff) →
      Drum.fromBytes ctx idx off data eReg sReg lReg bReg = none) := by
  constructor
  · intro ctx idx off data eReg sReg lReg bReg r h
    unfold Drum.fromBytes at h
    split at h
    case h_1 => exact absurd h (by simp)
    case h_2 decay pan reloc sampleOff tuning envOff hunpack =>
    split at h
    case isFalse => exact absurd h (by simp)
    case isTrue hrel =>
    split at h
    case isFalse => exact absurd h (by simp)
    case isTrue hsmp =>
    split at h
    case h_1 => exact absurd h (by simp)
    case h_2 smp sReg1 lReg1 bReg1 hs =>
    split at h
    case h_1 => exact absurd h (by simp)
    case h_2 env eReg1 he =>
    rw [Option.some_inj] at h
    subst h
    simpa using hsmp
  · intro ctx idx off data eReg sReg lReg bReg decay pan reloc tuning envOff hunpack
    unfold Drum.fromBytes
    rw [hunpack]
    simp

end Z64

namespace Z64

/-- Witness for C9: the drum of `B2` (nonzero pointer 60), decoded
against the pre-populated sample registry `sRegW` so its sample lookup
is a registry hit, returns with a nonzero sample pointer; and the
zero-pointer record `B9` is rejected (with empty registries — the
assert fires before any sample work). -/
theorem C9_witness :
    drumW.1.sample_offset ≠ 0 ∧
    drumUnpack B9 0 = some (255, 64, 0, 0, 0, 0) ∧
    Drum.fromBytes ctxW 0 0 B9 [] [] [] [] = none :=
  ⟨C9_zero_sample_pointer.1 ctxW 0 20 B2 [] sRegW [] [] drumW rfl,
   rfl,
   C9_zero_sample_pointer.2 ctxW 0 0 B9 [] [] [] [] 255 64 0 0 0 rfl⟩

end Z64

namespace Z64

/-! ## Registry lemmas -/

theorem regFind_append_absent {α : Type} (r : Registry α) (k : Nat) (v : α)
    (h : regFind r k = none) : regFind (r ++ [(k, v)]) k = some v := by
  induction r with
  | nil => simp [regFind]
  | cons p rest ih =>
    rw [List.cons_append]
    unfold regFind at h ⊢
    by_cases hpk : p.1 = k
    · simp [hpk] at h
    · simp only [if_neg hpk] at h ⊢
      exact ih h

theorem regKeys_append {α : Type} (r : Registry α) (k : Nat) (v : α) :
    regKeys (r ++ [(k, v)]) = regKeys r ++ [k] := by
  simp [regKeys]

theorem regExt_refl {α : Type} (r : Registry α) : RegExt r r := ⟨[], by simp⟩

theorem regExt_trans {α : Type} {a b c : Registry α}
    (h1 : RegExt a b) (h2 : RegExt b c) : RegExt a c := by
  obtain ⟨t1, h1⟩ := h1
  obtain ⟨t2, h2⟩ := h2
  exact ⟨t1 ++ t2, by rw [h2, h1, List.append_assoc]⟩

theorem regExt_push {α : Type} (r : Registry α) (k : Nat) (v : α) :
    RegExt r (r ++ [(k, v)]) := ⟨[k], regKeys_append r k v⟩

theorem regIdxFrom_append {α : Type} (idx : α → Int) (n : Nat) (r : Registry α)
    (k : Nat) (v : α) (hr : RegIdxFrom idx n r)
    (hv : idx v = ((n + r.length : Nat) : Int)) :
    RegIdxFrom idx n (r ++ [(k, v)]) := by
  induction r generalizing n with
  | nil => exact ⟨by simpa using hv, trivial⟩
  | cons p rest ih =>
    refine ⟨hr.1, ih (n + 1) hr.2 ?_⟩
    rw [hv]
    norm_cast
    simp only [List.length_cons]
    omega

end Z64

namespace Z64

/-! ## Leaf-codec characterization: memo hit returns the registry entry
unchanged, a fresh decode appends at the next index -/

theorem envelope_char (off : Nat) (data : Bytes)
    (reg reg' : Registry Envelope) (e : Envelope)
    (h : Envelope.fromBytes off data reg = some (e, reg')) :
    (regFind reg off = some e ∧ reg' = reg) ∨
    (regFind reg off = none ∧ reg' = reg ++ [(off, e)] ∧
      e.index = (reg.length : Int)) := by
  unfold Envelope.fromBytes at h
  split at h
  case h_1 e0 hfind =>
    rw [Option.some_inj] at h
    injection h with h1 h2
    subst h1
    subst h2
    exact Or.inl ⟨hfind, rfl⟩
  case h_2 hfind =>
    simp only [] at h
    split at h
    case h_1 => exact absurd h (by simp)
    case h_2 nm hname =>
      rw [Option.some_inj] at h
      injection h with h1 h2
      subst h1
      subst h2
      exact Or.inr ⟨hfind, rfl, rfl⟩

theorem loop_char (off : Nat) (data : Bytes)
    (reg reg' : Registry AdpcmLoop) (l : AdpcmLoop)
    (h : AdpcmLoop.fromBytes off data reg = some (l, reg')) :
    (regFind reg off = some l ∧ reg' = reg) ∨
    (regFind reg off = none ∧ reg' = reg ++ [(off, l)] ∧
      l.index = (reg.length : Int)) := by
  unfold AdpcmLoop.fromBytes at h
  split at h
  case h_1 l0 hfind =>
    rw [Option.some_inj] at h
    injection h with h1 h2
    subst h1
    subst h2
    exact Or.inl ⟨hfind, rfl⟩
  case h_2 hfind =>
    split at h
    case h_1 => exact absurd h (by simp)
    case h_2 s hs =>
      simp only [] at h
      split at h
      case isFalse => exact absurd h (by simp)
      case isTrue hcount =>
        split at h
        case h_1 => exact absurd h (by simp)
        case h_2 tail htail =>
          rw [Option.some_inj] at h
          injection h with h1 h2
          subst h1
          subst h2
          exact Or.inr ⟨hfind, rfl, rfl⟩

theorem book_char (off : Nat) (data : Bytes)
    (reg reg' : Registry AdpcmBook) (b : AdpcmBook)
    (h : AdpcmBook.fromBytes off data reg = some (b, reg')) :
    (regFind reg off = some b ∧ reg' = reg) ∨
    (regFind reg off = none ∧ reg' = reg ++ [(off, b)] ∧
      b.index = (reg.length : Int)) := by
  unfold AdpcmBook.fromBytes at h
  split at h
  case h_1 b0 hfind =>
    rw [Option.some_inj] at h
    injection h with h1 h2
    subst h1
    subst h2
    exact Or.inl ⟨hfind, rfl⟩
  case h_2 hfind =>
    split at h
    case h_1 => exact absurd h (by simp)
    case h_2 s hs =>
      simp only [] at h
      split at h
      case isFalse => exact absurd h (by simp)
      case isTrue hhdr =>
        split at h
        case isFalse => exact absurd h (by simp)
        case isTrue hmod =>
          rw [Option.some_inj] at h
          injection h with h1 h2
          subst h1
          subst h2
          exact Or.inr ⟨hfind, rfl, rfl⟩

theorem envelope_find {off : Nat} {data : Bytes}
    {reg reg' : Registry Envelope} {e : Envelope}
    (h : Envelope.fromBytes off data reg = some (e, reg')) :
    regFind reg' off = some e := by
  rcases envelope_char off data reg reg' e h with ⟨hf, rfl⟩ | ⟨hf, rfl, _⟩
  · exact hf
  · exact regFind_append_absent _ off e hf

theorem loop_find {off : Nat} {data : Bytes}
    {reg reg' : Registry AdpcmLoop} {l : AdpcmLoop}
    (h : AdpcmLoop.fromBytes off data reg = some (l, reg')) :
    regFind reg' off = some l := by
  rcases loop_char off data reg reg' l h with ⟨hf, rfl⟩ | ⟨hf, rfl, _⟩
  · exact hf
  · exact regFind_append_absent _ off l hf

theorem book_find {off : Nat} {data : Bytes}
    {reg reg' : Registry AdpcmBook} {b : AdpcmBook}
    (h : AdpcmBook.fromBytes off data reg = some (b, reg')) :
    regFind reg' off = some b := by
  rcases book_char off data reg reg' b h with ⟨hf, rfl⟩ | ⟨hf, rfl, _⟩
  · exact hf
  · exact regFind_append_absent _ off b hf

theorem envelope_ext {off : Nat} {data : Bytes}
    {reg reg' : Registry Envelope} {e : Envelope}
    (h : Envelope.fromBytes off data reg = some (e, reg')) : RegExt reg reg' := by
  rcases envelope_char off data reg reg' e h with ⟨_, rfl⟩ | ⟨_, rfl, _⟩
  · exact regExt_refl _
  · exact regExt_push _ off e

theorem envelope_wf {off : Nat} {data : Bytes}
    {reg reg' : Registry Envelope} {e : Envelope}
    (h : Envelope.fromBytes off data reg = some (e, reg'))
    (hwf : RegWF reg Envelope.index) : RegWF reg' Envelope.index := by
  rcases envelope_char off data reg reg' e h with ⟨_, rfl⟩ | ⟨_, rfl, hidx⟩
  · exact hwf
  · exact regIdxFrom_append _ 0 _ off e hwf (by simpa using hidx)

theorem loop_ext {off : Nat} {data : Bytes}
    {reg reg' : Registry AdpcmLoop} {l : AdpcmLoop}
    (h : AdpcmLoop.fromBytes off data reg = some (l, reg')) : RegExt reg reg' := by
  rcases loop_char off data reg reg' l h with ⟨_, rfl⟩ | ⟨_, rfl, _⟩
  · exact regExt_refl _
  · exact regExt_push _ off l

theorem loop_wf {off : Nat} {data : Bytes}
    {reg reg' : Registry AdpcmLoop} {l : AdpcmLoop}
    (h : AdpcmLoop.fromBytes off data reg = some (l, reg'))
    (hwf : RegWF reg AdpcmLoop.index) : RegWF reg' AdpcmLoop.index := by
  rcases loop_char off data reg reg' l h with ⟨_, rfl⟩ | ⟨_, rfl, hidx⟩
  · exact hwf
  · exact regIdxFrom_append _ 0 _ off l hwf (by simpa using hidx)

theorem book_ext {off : Nat} {data : Bytes}
    {reg reg' : Registry AdpcmBook} {b : AdpcmBook}
    (h : AdpcmBook.fromBytes off data reg = some (b, reg')) : RegExt reg reg' := by
  rcases book_char off data reg reg' b h with ⟨_, rfl⟩ | ⟨_, rfl, _⟩
  · exact regExt_refl _
  · exact regExt_push _ off b

theorem book_wf {off : Nat} {data : Bytes}
    {reg reg' : Registry AdpcmBook} {b : AdpcmBook}
    (h : AdpcmBook.fromBytes off data reg = some (b, reg'))
    (hwf : RegWF reg AdpcmBook.index) : RegWF reg' AdpcmBook.index := by
  rcases book_char off data reg reg' b h with ⟨_, rfl⟩ | ⟨_, rfl, hidx⟩
  · exact hwf
  · exact regIdxFrom_append _ 0 _ off b hwf (by simpa using hidx)

end Z64

namespace Z64

/-- Characterization of `Sample.from_bytes`: the only successful calls are
registry hits — the cached instance comes back and every registry is
untouched (a fresh decode always raises on the enum member lookup, see
the definition). -/
theorem sample_char (ctx : Ctx) (off : Nat) (data : Bytes)
    (sR sR' : Registry Sample) (lR lR' : Registry AdpcmLoop)
    (bR bR' : Registry AdpcmBook) (x : Sample)
    (h : Sample.fromBytes ctx off data sR lR bR = some (x, sR', lR', bR')) :
    regFind sR off = some x ∧ sR' = sR ∧ lR' = lR ∧ bR' = bR := by
  unfold Sample.fromBytes at h
  split at h
  case h_1 s0 hfind =>
    rw [Option.some_inj] at h
    injection h with h1 h'
    injection h' with h2 h''
    injection h'' with h3 h4
    subst h1
    subst h2
    subst h3
    subst h4
    exact ⟨hfind, rfl, rfl, rfl⟩
  case h_2 hfind => exact absurd h (by simp)

theorem sample_find {ctx : Ctx} {off : Nat} {data : Bytes}
    {sR sR' : Registry Sample} {lR lR' : Registry AdpcmLoop}
    {bR bR' : Registry AdpcmBook} {x : Sample}
    (h : Sample.fromBytes ctx off data sR lR bR = some (x, sR', lR', bR')) :
    regFind sR' off = some x := by
  obtain ⟨hf, rfl, -, -⟩ := sample_char ctx off data sR sR' lR lR' bR bR' x h
  exact hf

end Z64

namespace Z64

theorem envelope_memo {off : Nat} {data : Bytes}
    {reg reg' : Registry Envelope} {e : Envelope}
    (h : Envelope.fromBytes off data reg = some (e, reg')) :
    Envelope.fromBytes off data reg' = some (e, reg') := by
  have hf := envelope_find h
  unfold Envelope.fromBytes
  rw [hf]

theorem loop_memo {off : Nat} {data : Bytes}
    {reg reg' : Registry AdpcmLoop} {l : AdpcmLoop}
    (h : AdpcmLoop.fromBytes off data reg = some (l, reg')) :
    AdpcmLoop.fromBytes off data reg' = some (l, reg') := by
  have hf := loop_find h
  unfold AdpcmLoop.fromBytes
  rw [hf]

theorem book_memo {off : Nat} {data : Bytes}
    {reg reg' : Registry AdpcmBook} {b : AdpcmBook}
    (h : AdpcmBook.fromBytes off data reg = some (b, reg')) :
    AdpcmBook.fromBytes off data reg' = some (b, reg') := by
  have hf := book_find h
  unfold AdpcmBook.fromBytes
  rw [hf]

theorem sample_memo {ctx : Ctx} {off : Nat} {data : Bytes}
    {sR sR' : Registry Sample} {lR lR' : Registry AdpcmLoop}
    {bR bR' : Registry AdpcmBook} {x : Sample}
    (h : Sample.fromBytes ctx off data sR lR bR = some (x, sR', lR', bR')) :
    Sample.fromBytes ctx off data sR' lR' bR' = some (x, sR', lR', bR') := by
  have hf := sample_find h
  unfold Sample.fromBytes
  rw [hf]

/-- C3: each leaf codec (Envelope, AdpcmLoop, AdpcmBook, Sample) is
memoized on its registry: after a successful call, calling `from_bytes`
again with the same offset against the resulting registry returns the
identical instance (with its identical stored index) and leaves every
registry unchanged — the memo branch returns the registry entry without
re-decoding. -/
theorem C3_memoized_leaf_decode :
    (∀ off data reg e reg', Envelope.fromBytes off data reg = some (e, reg') →
      Envelope.fromBytes off data reg' = some (e, reg')) ∧
    (∀ off data reg l reg', AdpcmLoop.fromBytes off data reg = some (l, reg') →
      AdpcmLoop.fromBytes off data reg' = some (l, reg')) ∧
    (∀ off data reg b reg', AdpcmBook.fromBytes off data reg = some (b, reg') →
      AdpcmBook.fromBytes off data reg' = some (b, reg')) ∧
    (∀ ctx off data sR lR bR x sR' lR' bR',
      Sample.fromBytes ctx off data sR lR bR = some (x, sR', lR', bR') →
      Sample.fromBytes ctx off data sR' lR' bR' = some (x, sR', lR', bR')) :=
  ⟨fun _ _ _ _ _ h => envelope_memo h,
   fun _ _ _ _ _ h => loop_memo h,
   fun _ _ _ _ _ h => book_memo h,
   fun _ _ _ _ _ _ _ _ _ _ h => sample_memo h⟩

/-- Witness for C3: repeated decodes at the concrete offsets of
`envData` and `B2` return the first call's result unchanged; the sample
case runs against the pre-populated registry `sRegW`, a registry hit
being the only successful execution `Sample.from_bytes` has. -/
theorem C3_witness :
    (Envelope.fromBytes 0 envData [] = some envW ∧
      Envelope.fromBytes 0 envData envW.2 = some envW) ∧
    (AdpcmLoop.fromBytes 140 B2 [] = some lbW ∧
      AdpcmLoop.fromBytes 140 B2 lbW.2 = some lbW) ∧
    (AdpcmBook.fromBytes 160 B2 [] = some cbW ∧
      AdpcmBook.fromBytes 160 B2 cbW.2 = some cbW) ∧
    (Sample.fromBytes ctxW 60 B2 sRegW [] [] = some (smpWv, sRegW, [], []) ∧
      Sample.fromBytes ctxW 60 B2 sRegW [] [] = some (smpWv, sRegW, [], [])) :=
  ⟨⟨rfl, C3_memoized_leaf_decode.1 0 envData [] envW.1 envW.2 rfl⟩,
   ⟨rfl, C3_memoized_leaf_decode.2.1 140 B2 [] lbW.1 lbW.2 rfl⟩,
   ⟨rfl, C3_memoized_leaf_decode.2.2.1 160 B2 [] cbW.1 cbW.2 rfl⟩,
   ⟨rfl, C3_memoized_leaf_decode.2.2.2 ctxW 60 B2 sRegW [] [] smpWv sRegW [] []
      rfl⟩⟩

end Z64

namespace Z64

/-! ## Aggregate-codec registry lemmas -/

theorem stExt_refl (st : RegState) : StExt st st :=
  ⟨regExt_refl _, regExt_refl _, regExt_refl _, regExt_refl _⟩

theorem stExt_trans {a b c : RegState} (h1 : StExt a b) (h2 : StExt b c) :
    StExt a c :=
  ⟨regExt_trans h1.1 h2.1, regExt_trans h1.2.1 h2.2.1,
   regExt_trans h1.2.2.1 h2.2.2.1, regExt_trans h1.2.2.2 h2.2.2.2⟩

theorem sample_ext_wf {ctx : Ctx} {off : Nat} {data : Bytes}
    {sR sR' : Registry Sample} {lR lR' : Registry AdpcmLoop}
    {bR bR' : Registry AdpcmBook} {x : Sample}
    (h : Sample.fromBytes ctx off data sR lR bR = some (x, sR', lR', bR')) :
    (RegExt sR sR' ∧ RegExt lR lR' ∧ RegExt bR bR') ∧
    ((RegWF sR Sample.index ∧ RegWF lR AdpcmLoop.index ∧
      RegWF bR AdpcmBook.index) →
     (RegWF sR' Sample.index ∧ RegWF lR' AdpcmLoop.index ∧
      RegWF bR' AdpcmBook.index)) := by
  obtain ⟨-, rfl, rfl, rfl⟩ := sample_char ctx off data sR sR' lR lR' bR bR' x h
  exact ⟨⟨regExt_refl _, regExt_refl _, regExt_refl _⟩, id⟩

/-- The `Envelope.from_bytes(...) if offset != 0 else None` step of the
aggregate decoders. -/
theorem envOpt_ext_wf {envOff : Nat} {data : Bytes}
    {eReg eReg1 : Registry Envelope} {env : Option Envelope}
    (h : (if envOff ≠ 0 then
            (Envelope.fromBytes envOff data eReg).map (fun p => (some p.1, p.2))
          else some (none, eReg)) = some (env, eReg1)) :
    RegExt eReg eReg1 ∧
    (RegWF eReg Envelope.index → RegWF eReg1 Envelope.index) := by
  split at h
  · rw [Option.map_eq_some'] at h
    obtain ⟨⟨e, reg1⟩, hfb, hpair⟩ := h
    injection hpair with h1 h2
    subst h2
    exact ⟨envelope_ext hfb, fun hwf => envelope_wf hfb hwf⟩
  · rw [Option.some_inj] at h
    injection h with h1 h2
    subst h2
    exact ⟨regExt_refl _, id⟩

/-- The `Sample.from_bytes(...) if offset != 0 else None` step of
`Instrument.from_bytes`. -/
theorem smpOpt_ext_wf {ctx : Ctx} {off : Nat} {data : Bytes}
    {sR sR' : Registry Sample} {lR lR' : Registry AdpcmLoop}
    {bR bR' : Registry AdpcmBook} {res : Option Sample}
    (h : (if off ≠ 0 then
            (Sample.fromBytes ctx off data sR lR bR).map
              (fun p => (some p.1, p.2.1, p.2.2.1, p.2.2.2))
          else some (none, sR, lR, bR)) = some (res, sR', lR', bR')) :
    (RegExt sR sR' ∧ RegExt lR lR' ∧ RegExt bR bR') ∧
    ((RegWF sR Sample.index ∧ RegWF lR AdpcmLoop.index ∧
      RegWF bR AdpcmBook.index) →
     (RegWF sR' Sample.index ∧ RegWF lR' AdpcmLoop.index ∧
      RegWF bR' AdpcmBook.index)) := by
  split at h
  · rw [Option.map_eq_some'] at h
    obtain ⟨⟨smp, reg1, reg2, reg3⟩, hfb, hpair⟩ := h
    injection hpair with h1 h'
    injection h' with h2 h''
    injection h'' with h3 h4
    subst h2
    subst h3
    subst h4
    exact sample_ext_wf hfb
  · rw [Option.some_inj] at h
    injection h with h1 h'
    injection h' with h2 h''
    injection h'' with h3 h4
    subst h2
    subst h3
    subst h4
    exact ⟨⟨regExt_refl _, regExt_refl _, regExt_refl _⟩, id⟩

theorem effect_ext_wf {ctx : Ctx} {idx : Int} {off : Nat}
    {data : Bytes} {sR sR' : Registry Sample} {lR lR' : Registry AdpcmLoop}
    {bR bR' : Registry AdpcmBook} {e : SoundEffect}
    (h : SoundEffect.fromBytes ctx idx off data sR lR bR = some (e, sR', lR', bR')) :
    (RegExt sR sR' ∧ RegExt lR lR' ∧ RegExt bR bR') ∧
    ((RegWF sR Sample.index ∧ RegWF lR AdpcmLoop.index ∧
      RegWF bR AdpcmBook.index) →
     (RegWF sR' Sample.index ∧ RegWF lR' AdpcmLoop.index ∧
      RegWF bR' AdpcmBook.index)) := by
  unfold SoundEffect.fromBytes at h
  split at h
  case h_1 => exact absurd h (by simp)
  case h_2 s hs =>
  simp only [] at h
  split at h
  case h_1 => exact absurd h (by simp)
  case h_2 smp sReg1 lReg1 bReg1 hsmp =>
  rw [Option.some_inj] at h
  injection h with h1 h'
  injection h' with h2 h''
  injection h'' with h3 h4
  subst h2
  subst h3
  subst h4
  exact sample_ext_wf hsmp

theorem drum_ext_wf {ctx : Ctx} {idx : Int} {off : Nat} {data : Bytes}
    {eR eR' : Registry Envelope} {sR sR' : Registry Sample}
    {lR lR' : Registry AdpcmLoop} {bR bR' : Registry AdpcmBook} {d : Drum}
    (h : Drum.fromBytes ctx idx off data eR sR lR bR = some (d, eR', sR', lR', bR')) :
    StExt ⟨eR, sR, lR, bR⟩ ⟨eR', sR', lR', bR'⟩ ∧
    (StWF ⟨eR, sR, lR, bR⟩ → StWF ⟨eR', sR', lR', bR'⟩) := by
  unfold Drum.fromBytes at h
  split at h
  case h_1 => exact absurd h (by simp)
  case h_2 decay pan reloc sampleOff tuning envOff hunpack =>
  split at h
  case isFalse => exact absurd h (by simp)
  case isTrue hrel =>
  split at h
  case isFalse => exact absurd h (by simp)
  case isTrue hso =>
  split at h
  case h_1 => exact absurd h (by simp)
  case h_2 smp sReg1 lReg1 bReg1 hsmp =>
  split at h
  case h_1 => exact absurd h (by simp)
  case h_2 env eReg1 henv =>
  rw [Option.some_inj] at h
  injection h with h1 h'
  injection h' with h2 h''
  injection h'' with h3 h'''
  injection h''' with h4 h5
  subst h2
  subst h3
  subst h4
  subst h5
  have hs := sample_ext_wf hsmp
  have he := envOpt_ext_wf henv
  refine ⟨⟨he.1, hs.1.1, hs.1.2.1, hs.1.2.2⟩, fun hwf => ?_⟩
  have hs2 := hs.2 ⟨hwf.2.1, hwf.2.2.1, hwf.2.2.2⟩
  exact ⟨he.2 hwf.1, hs2.1, hs2.2.1, hs2.2.2⟩

theorem instrument_ext_wf {ctx : Ctx} {idx : Int} {off : Nat}
    {data : Bytes} {eR eR' : Registry Envelope} {sR sR' : Registry Sample}
    {lR lR' : Registry AdpcmLoop} {bR bR' : Registry AdpcmBook} {ins : Instrument}
    (h : Instrument.fromBytes ctx idx off data eR sR lR bR =
      some (ins, eR', sR', lR', bR')) :
    StExt ⟨eR, sR, lR, bR⟩ ⟨eR', sR', lR', bR'⟩ ∧
    (StWF ⟨eR, sR, lR, bR⟩ → StWF ⟨eR', sR', lR', bR'⟩) := by
  unfold Instrument.fromBytes at h
  split at h
  case h_1 => exact absurd h (by simp)
  case h_2 f hunpack =>
  split at h
  case isFalse => exact absurd h (by simp)
  case isTrue hrel =>
  split at h
  case isFalse => exact absurd h (by simp)
  case isTrue hguard =>
  split at h
  case h_1 => exact absurd h (by simp)
  case h_2 env eReg1 henv =>
  split at h
  case h_1 => exact absurd h (by simp)
  case h_2 low sReg1 lReg1 bReg1 hlow =>
  split at h
  case h_1 => exact absurd h (by simp)
  case h_2 prim sReg2 lReg2 bReg2 hprim =>
  split at h
  case h_1 => exact absurd h (by simp)
  case h_2 high sReg3 lReg3 bReg3 hhigh =>
  rw [Option.some_inj] at h
  injection h with h1 h'
  injection h' with h2 h''
  injection h'' with h3 h'''
  injection h''' with h4 h5
  subst h2
  subst h3
  subst h4
  subst h5
  have he := envOpt_ext_wf henv
  have h1e := smpOpt_ext_wf hlow
  have h2e := smpOpt_ext_wf hprim
  have h3e := smpOpt_ext_wf hhigh
  refine ⟨⟨he.1,
    regExt_trans (regExt_trans h1e.1.1 h2e.1.1) h3e.1.1,
    regExt_trans (regExt_trans h1e.1.2.1 h2e.1.2.1) h3e.1.2.1,
    regExt_trans (regExt_trans h1e.1.2.2 h2e.1.2.2) h3e.1.2.2⟩, fun hwf => ?_⟩
  have w1 := h1e.2 ⟨hwf.2.1, hwf.2.2.1, hwf.2.2.2⟩
  have w2 := h2e.2 w1
  have w3 := h3e.2 w2
  exact ⟨he.2 hwf.1, w3.1, w3.2.1, w3.2.2⟩

end Z64

namespace Z64

/-! ## Walk lemmas: each decode phase grows the registries append-only
and preserves index contiguity -/

theorem decodeDrumList_ext_wf (ctx : Ctx) (data : Bytes) :
    ∀ (addrs : List Nat) (vi : Int) (st : RegState) (ds : List (Option Drum))
      (st' : RegState),
    decodeDrumList ctx data addrs vi st = some (ds, st') →
    StExt st st' ∧ (StWF st → StWF st') := by
  intro addrs
  induction addrs with
  | nil =>
    intro vi st ds st' h
    unfold decodeDrumList at h
    rw [Option.some_inj] at h
    injection h with h1 h2
    subst h2
    exact ⟨stExt_refl _, id⟩
  | cons a rest ih =>
    intro vi st ds st' h
    unfold decodeDrumList at h
    split at h
    case isTrue =>
      split at h
      case h_1 => exact absurd h (by simp)
      case h_2 ds1 st1 hrec =>
        rw [Option.some_inj] at h
        injection h with h1 h2
        subst h2
        exact ih vi st ds1 st1 hrec
    case isFalse =>
      split at h
      case h_1 => exact absurd h (by simp)
      case h_2 d e1 s1 l1 b1 hd =>
        split at h
        case h_1 => exact absurd h (by simp)
        case h_2 ds1 st1 hrec =>
          rw [Option.some_inj] at h
          injection h with h1 h2
          subst h2
          have hone := drum_ext_wf hd
          have hrest := ih (vi + 1) ⟨e1, s1, l1, b1⟩ ds1 st1 hrec
          exact ⟨stExt_trans hone.1 hrest.1, fun hwf => hrest.2 (hone.2 hwf)⟩

theorem decodeEffectList_ext_wf (ctx : Ctx) (data : Bytes) (sfxOff : Nat) :
    ∀ (n i : Nat) (st : RegState) (es : List (Option SoundEffect))
      (st' : RegState),
    decodeEffectList ctx data sfxOff n i st = some (es, st') →
    StExt st st' ∧ (StWF st → StWF st') := by
  intro n
  induction n with
  | zero =>
    intro i st es st' h
    unfold decodeEffectList at h
    rw [Option.some_inj] at h
    injection h with h1 h2
    subst h2
    exact ⟨stExt_refl _, id⟩
  | succ n ih =>
    intro i st es st' h
    unfold decodeEffectList at h
    simp only [] at h
    split at h
    case isTrue =>
      split at h
      case h_1 => exact absurd h (by simp)
      case h_2 es1 st1 hrec =>
        rw [Option.some_inj] at h
        injection h with h1 h2
        subst h2
        exact ih (i + 1) st es1 st1 hrec
    case isFalse =>
      split at h
      case h_1 => exact absurd h (by simp)
      case h_2 e s1 l1 b1 he =>
        split at h
        case h_1 => exact absurd h (by simp)
        case h_2 es1 st1 hrec =>
          rw [Option.some_inj] at h
          injection h with h1 h2
          subst h2
          have hone := effect_ext_wf he
          have hrest := ih (i + 1) ⟨st.env, s1, l1, b1⟩ es1 st1 hrec
          have hstep : StExt st ⟨st.env, s1, l1, b1⟩ :=
            ⟨regExt_refl _, hone.1.1, hone.1.2.1, hone.1.2.2⟩
          refine ⟨stExt_trans hstep hrest.1, fun hwf => hrest.2 ?_⟩
          have hw := hone.2 ⟨hwf.2.1, hwf.2.2.1, hwf.2.2.2⟩
          exact ⟨hwf.1, hw.1, hw.2.1, hw.2.2⟩

theorem decodeInstList_ext_wf (ctx : Ctx) (data : Bytes) :
    ∀ (addrs : List Nat) (vi : Int) (st : RegState)
      (is_ : List (Option Instrument)) (st' : RegState),
    decodeInstList ctx data addrs vi st = some (is_, st') →
    StExt st st' ∧ (StWF st → StWF st') := by
  intro addrs
  induction addrs with
  | nil =>
    intro vi st is_ st' h
    unfold decodeInstList at h
    rw [Option.some_inj] at h
    injection h with h1 h2
    subst h2
    exact ⟨stExt_refl _, id⟩
  | cons a rest ih =>
    intro vi st is_ st' h
    unfold decodeInstList at h
    split at h
    case isTrue =>
      split at h
      case h_1 => exact absurd h (by simp)
      case h_2 is1 st1 hrec =>
        rw [Option.some_inj] at h
        injection h with h1 h2
        subst h2
        exact ih vi st is1 st1 hrec
    case isFalse =>
      split at h
      case h_1 => exact absurd h (by simp)
      case h_2 ins e1 s1 l1 b1 hi =>
        split at h
        case h_1 => exact absurd h (by simp)
        case h_2 is1 st1 hrec =>
          rw [Option.some_inj] at h
          injection h with h1 h2
          subst h2
          have hone := instrument_ext_wf hi
          have hrest := ih (vi + 1) ⟨e1, s1, l1, b1⟩ is1 st1 hrec
          exact ⟨stExt_trans hone.1 hrest.1, fun hwf => hrest.2 (hone.2 hwf)⟩

end Z64

namespace Z64

/-- C4: in every graph produced by a successful `Audiobank.from_bytes`,
each of the four registries carries the contiguous indices 0, 1, 2, ...
in insertion order (each entity was inserted with
`registry[offset] = self; self.index = len(registry) - 1`, i.e. received
the registry's size before insertion as its index). -/
theorem C4_registry_indices_contiguous (ctx : Ctx) (m : Bankmeta) (data : Bytes)
    (g : Audiobank) (h : Audiobank.fromBytes ctx m data = some g) :
    RegWF g.envelope_registry Envelope.index ∧
    RegWF g.sample_registry Sample.index ∧
    RegWF g.loopbook_registry AdpcmLoop.index ∧
    RegWF g.codebook_registry AdpcmBook.index := by
  unfold Audiobank.fromBytes at h
  split at h
  case h_1 => exact absurd h (by simp)
  case h_2 hdr hhdr =>
  simp only [] at h
  split at h
  case h_1 => exact absurd h (by simp)
  case h_2 drums st1 hdrums =>
  split at h
  case h_1 => exact absurd h (by simp)
  case h_2 effects st2 heffects =>
  split at h
  case h_1 => exact absurd h (by simp)
  case h_2 insts st3 hinsts =>
  rw [Option.some_inj] at h
  subst h
  have w0 : StWF RegState.init := ⟨trivial, trivial, trivial, trivial⟩
  have w1 := (decodeDrumList_ext_wf ctx data _ _ _ _ _ hdrums).2 w0
  have w2 := (decodeEffectList_ext_wf ctx data _ _ _ _ _ _ heffects).2 w1
  have w3 := (decodeInstList_ext_wf ctx data _ _ _ _ _ hinsts).2 w2
  exact ⟨w3.1, w3.2.1, w3.2.2.1, w3.2.2.2⟩

/-- Witness for C4 at the decode of `B4` (two envelopes at indices 0 and
1 in the envelope registry; the other three registries stay empty in any
full binary decode, every fresh sample decode raising). -/
theorem C4_witness :
    RegWF gB4.envelope_registry Envelope.index ∧
    RegWF gB4.sample_registry Sample.index ∧
    RegWF gB4.loopbook_registry AdpcmLoop.index ∧
    RegWF gB4.codebook_registry AdpcmBook.index :=
  C4_registry_indices_contiguous ctxW m4 B4 gB4 rfl

end Z64

namespace Z64

set_option maxRecDepth 16000

/-! ## The two aggregate walks commute

Within `Audiobank.from_bytes` the sample registry starts empty and can
never gain an entry (a fresh `Sample.from_bytes` always raises before its
insertion line), so every present drum and every present effect aborts
the whole decode, and the drum walk and the effect walk commute. -/

/-- A fresh sample decode (empty registry) is always an error. -/
theorem sample_fresh_raises (ctx : Ctx) (off : Nat) (data : Bytes)
    (lReg : Registry AdpcmLoop) (bReg : Registry AdpcmBook) :
    Sample.fromBytes ctx off data [] lReg bReg = none := rfl

/-- With an empty sample registry, `Drum.from_bytes` always raises: its
sample pointer is either 0 (the assert fires) or nonzero (the fresh
sample decode raises). -/
theorem drum_smp_nil (ctx : Ctx) (idx : Int) (off : Nat) (data : Bytes)
    (eReg : Registry Envelope) (lReg : Registry AdpcmLoop)
    (bReg : Registry AdpcmBook) :
    Drum.fromBytes ctx idx off data eReg [] lReg bReg = none := by
  unfold Drum.fromBytes
  split
  · rfl
  · split
    · split
      · rw [sample_fresh_raises]
      · rfl
    · rfl

/-- With an empty sample registry, `SoundEffect.from_bytes` always
raises inside its unconditional sample decode. -/
theorem effect_smp_nil (ctx : Ctx) (idx : Int) (off : Nat) (data : Bytes)
    (lReg : Registry AdpcmLoop) (bReg : Registry AdpcmBook) :
    SoundEffect.fromBytes ctx idx off data [] lReg bReg = none := by
  unfold SoundEffect.fromBytes
  split
  · rfl
  · simp only [sample_fresh_raises]

/-- A drum walk that starts with an empty sample registry returns the
state unchanged when it returns at all (every slot it accepts is a zero
slot). -/
theorem decodeDrumList_smp_nil (ctx : Ctx) (data : Bytes) :
    ∀ (addrs : List Nat) (vi : Int) (st : RegState), st.smp = [] →
    ∀ (ds : List (Option Drum)) (st' : RegState),
    decodeDrumList ctx data addrs vi st = some (ds, st') → st' = st := by
  intro addrs
  induction addrs with
  | nil =>
    intro vi st hs ds st' h
    unfold decodeDrumList at h
    rw [Option.some_inj] at h
    injection h with h1 h2
    exact h2.symm
  | cons a rest ih =>
    intro vi st hs ds st' h
    unfold decodeDrumList at h
    split at h
    case isTrue =>
      split at h
      case h_1 => exact absurd h (by simp)
      case h_2 ds1 st1 hrec =>
        rw [Option.some_inj] at h
        injection h with h1 h2
        subst h2
        exact ih vi st hs ds1 st1 hrec
    case isFalse =>
      have hd : Drum.fromBytes ctx vi a data st.env st.smp st.lb st.cb = none := by
        rw [hs]
        exact drum_smp_nil ctx vi a data st.env st.lb st.cb
      rw [hd] at h
      simp at h

/-- An effect walk that starts with an empty sample registry returns the
state unchanged when it returns at all (every record it accepts is an
all-zero record). -/
theorem decodeEffectList_smp_nil (ctx : Ctx) (data : Bytes) (sfxOff : Nat) :
    ∀ (n i : Nat) (st : RegState), st.smp = [] →
    ∀ (es : List (Option SoundEffect)) (st' : RegState),
    decodeEffectList ctx data sfxOff n i st = some (es, st') → st' = st := by
  intro n
  induction n with
  | zero =>
    intro i st hs es st' h
    unfold decodeEffectList at h
    rw [Option.some_inj] at h
    injection h with h1 h2
    exact h2.symm
  | succ n ih =>
    intro i st hs es st' h
    unfold decodeEffectList at h
    simp only [] at h
    split at h
    case isTrue =>
      split at h
      case h_1 => exact absurd h (by simp)
      case h_2 es1 st1 hrec =>
        rw [Option.some_inj] at h
        injection h with h1 h2
        subst h2
        exact ih (i + 1) st hs es1 st1 hrec
    case isFalse =>
      have he : SoundEffect.fromBytes ctx (i : Int) (sfxOff + 8 * i) data
          st.smp st.lb st.cb = none := by
        rw [hs]
        exact effect_smp_nil ctx (i : Int) (sfxOff + 8 * i) data st.lb st.cb
      rw [he] at h
      simp at h

/-- C2: on every input, `Audiobank.from_bytes` computes exactly what the
specification's traversal — effects, then drums, then instruments, each
visited in table order — computes.  The source's loops run drums first
(Audiobank.py lines 181-206), but a present drum or effect always aborts
the whole decode inside the fresh `Sample.from_bytes` (the sample
registry is necessarily empty), so the drum walk and the effect walk
commute: the decoded lists and all four registries — hence every
first-encounter index — are those of the effects-first walk. -/
theorem C2_effects_first_equiv (ctx : Ctx) (m : Bankmeta) (data : Bytes) :
    Audiobank.fromBytes ctx m data = effectsFirstDecode ctx m data := by
  unfold Audiobank.fromBytes effectsFirstDecode
  cases hh : exactSlice data 0 0x08 with
  | none => rfl
  | some hdr =>
    simp only []
    cases hd : decodeDrumList ctx data
        ((List.range m.num_drums).map
          (fun i => readU32t data (beNat (hdr.take 4) + 4 * i))) 0
        RegState.init with
    | none =>
      cases he : decodeEffectList ctx data (beNat (pySlice hdr 4 8))
          m.num_effects 0 RegState.init with
      | none => rfl
      | some p2 =>
        obtain ⟨es, st2⟩ := p2
        have h2 := decodeEffectList_smp_nil ctx data _ _ _ _ rfl es st2 he
        subst h2
        simp only [hd]
    | some p1 =>
      obtain ⟨ds, st1⟩ := p1
      have h1 := decodeDrumList_smp_nil ctx data _ _ _ rfl ds st1 hd
      subst h1
      cases he : decodeEffectList ctx data (beNat (pySlice hdr 4 8))
          m.num_effects 0 RegState.init with
      | none => simp only [he]
      | some p2 =>
        obtain ⟨es, st2⟩ := p2
        have h2 := decodeEffectList_smp_nil ctx data _ _ _ _ rfl es st2 he
        subst h2
        simp only [hd, he]

/-- Witness for C2: the two walks agree on the decodable bank `B4` (a
successful decode, showing the equivalence is not vacuous) and on `B2`
(where the present drum aborts both). -/
theorem C2_equiv_witness :
    Audiobank.fromBytes ctxW m4 B4 = effectsFirstDecode ctxW m4 B4 ∧
    (Audiobank.fromBytes ctxW m4 B4).isSome = true ∧
    Audiobank.fromBytes ctxW m2 B2 = none :=
  ⟨C2_effects_first_equiv ctxW m4 B4, rfl, rfl⟩

end Z64

namespace Z64

/-! ## Buffer-splice lemmas for the encoder -/

theorem beBytes_length (w n : Nat) : (beBytes w n).length = w := by
  induction w generalizing n with
  | zero => rfl
  | succ w ih => simp [beBytes, ih]

theorem align_to_16_ge (n : Nat) : n ≤ align_to_16 n := by
  unfold align_to_16
  omega

theorem cumOffsets_mem_ge (l : List Nat) :
    ∀ (s : Nat), ∀ o ∈ cumOffsets s l, s ≤ o := by
  induction l with
  | nil => intro s o ho; simp [cumOffsets] at ho
  | cons x rest ih =>
    intro s o ho
    simp only [cumOffsets, List.mem_cons] at ho
    rcases ho with rfl | ho
    · exact Nat.le_refl _
    · exact Nat.le_trans (Nat.le_add_right s x) (ih (s + x) o ho)

theorem writeAt_take (buf d : Bytes) (off m : Nat) (hm : m ≤ off)
    (hlen : m ≤ buf.length) : (writeAt buf off d).take m = buf.take m := by
  unfold writeAt
  rw [List.append_assoc, List.take_append_of_le_length
    (by simpa using ⟨hm, hlen⟩ : m ≤ (buf.take off).length),
    List.take_take, Nat.min_eq_left hm]

theorem writeAt_length_ge (buf d : Bytes) (off m : Nat) (hm : m ≤ off)
    (hlen : m ≤ buf.length) : m ≤ (writeAt buf off d).length := by
  unfold writeAt
  simp only [List.length_append, List.length_take]
  omega

theorem writeAtAll_take (items : List (Nat × Bytes)) :
    ∀ (buf : Bytes) (m : Nat), (∀ q ∈ items, m ≤ q.1) → m ≤ buf.length →
    (writeAtAll buf items).take m = buf.take m ∧
    m ≤ (writeAtAll buf items).length := by
  induction items with
  | nil => intro buf m _ hlen; exact ⟨rfl, hlen⟩
  | cons q rest ih =>
    intro buf m hq hlen
    have hq1 : m ≤ q.1 := hq q (List.mem_cons_self q rest)
    have hstep := writeAt_take buf q.2 q.1 m hq1 hlen
    have hstepl := writeAt_length_ge buf q.2 q.1 m hq1 hlen
    have hrest := ih (writeAt buf q.1 q.2) m
      (fun p hp => hq p (List.mem_cons_of_mem q hp)) hstepl
    exact ⟨by rw [writeAtAll, List.foldl_cons, ← hstep]
              exact hrest.1, hrest.2⟩

theorem patchPtrTable_take (offs : List Nat) :
    ∀ (idxMap : List Int) (tbl : Bytes) (i : Nat) (tbl' : Bytes),
    8 ≤ tbl.length → patchPtrTable 8 offs tbl i idxMap = some tbl' →
    tbl'.take 8 = tbl.take 8 ∧ 8 ≤ tbl'.length := by
  intro idxMap
  induction idxMap with
  | nil =>
    intro tbl i tbl' hlen h
    unfold patchPtrTable at h
    rw [Option.some_inj] at h
    subst h
    exact ⟨rfl, hlen⟩
  | cons idx rest ih =>
    intro tbl i tbl' hlen h
    unfold patchPtrTable at h
    split at h
    case isTrue hcond =>
      split at h
      case h_1 => exact absurd h (by simp)
      case h_2 p hp =>
        have hoff : (8 : Nat) ≤ 8 + 4 * i := by omega
        have hstep := writeAt_take tbl p (8 + 4 * i) 8 hoff hlen
        have hstepl := writeAt_length_ge tbl p (8 + 4 * i) 8 hoff hlen
        have hrest := ih (writeAt tbl (8 + 4 * i) p) (i + 1) tbl' hstepl h
        exact ⟨by rw [hrest.1, hstep], hrest.2⟩
    case isFalse =>
      exact ih tbl (i + 1) tbl' hlen h

end Z64

namespace Z64

theorem placeholder_flatten_length {α : Type} (l : List α) :
    ((l.map (fun _ => beBytes 4 0)).flatten).length = 4 * l.length := by
  induction l with
  | nil => rfl
  | cons x r ih =>
    simp only [List.map_cons, List.flatten_cons, List.length_append, ih,
      beBytes_length, List.length_cons]
    ring

theorem align_to_16_ge_16 (n : Nat) : 16 ≤ align_to_16 (8 + n) := by
  unfold align_to_16
  omega

theorem writeAt_header_take8 (fl : Bytes) (dv : Nat) :
    (writeAt (beBytes 4 0 ++ beBytes 4 0 ++ fl) 0 (beBytes 4 dv)).take 8 =
      beBytes 4 dv ++ [0, 0, 0, 0] := by
  unfold writeAt
  rw [List.take_zero, List.nil_append, Nat.zero_add, beBytes_length,
    List.append_assoc, List.drop_left' (beBytes_length 4 0),
    List.take_append_eq_append_take,
    List.take_of_length_le (by simp [beBytes_length]),
    beBytes_length, List.take_append_of_le_length (by simp [beBytes_length]),
    List.take_of_length_le (by simp [beBytes_length])]
  rfl

theorem writeAt_header_length (fl : Bytes) (dv : Nat) :
    8 ≤ (writeAt (beBytes 4 0 ++ beBytes 4 0 ++ fl) 0 (beBytes 4 dv)).length := by
  unfold writeAt
  simp [beBytes_length]
  omega

/-- The allocation-pass facts feeding the header-bytes theorem: the
DRUMLIST offset value, the patched first 8 ABBANK bytes, and lower
bounds placing every other write at offset 16 or later. -/
theorem pass1_header_facts (g : Audiobank) (p : Pass1) (h : g.pass1 = some p) :
    p.drumlist_offset = align_to_16 (8 + 4 * g.instrument_index_map.length) ∧
    p.abbank1.take 8 = beBytes 4 p.drumlist_offset ++ [0, 0, 0, 0] ∧
    8 ≤ p.abbank1.length ∧
    16 ≤ p.drumlist_offset ∧
    (∀ o ∈ p.instOffs, 16 ≤ o) ∧ (∀ o ∈ p.drumOffs, 16 ≤ o) ∧
    (∀ o ∈ p.sampleOffs, 16 ≤ o) ∧ (∀ o ∈ p.envOffs, 16 ≤ o) ∧
    (∀ o ∈ p.lbOffs, 16 ≤ o) ∧ (∀ o ∈ p.cbOffs, 16 ≤ o) ∧
    16 ≤ p.total_size := by
  unfold Audiobank.pass1 at h
  simp only [Option.bind_eq_bind', Option.bind_eq_some', Option.some_inj] at h
  obtain ⟨dlo, hdlo, insts, hinsts, drums, hdrums, envSizes, henvS, lbSizes,
    hlbS, cbSizes, hcbS, hp⟩ := h
  subst hp
  have habb0 : (beBytes 4 0 ++ beBytes 4 0 ++
      (g.instrument_index_map.map (fun _ => beBytes 4 0)).flatten).length =
      8 + 4 * g.instrument_index_map.length := by
    simp [placeholder_flatten_length, beBytes_length]
    omega
  have hd16 : 16 ≤ align_to_16 (8 + 4 * g.instrument_index_map.length) :=
    align_to_16_ge_16 _
  unfold packU32 at hdlo
  split at hdlo
  case isFalse => exact absurd hdlo (by simp)
  case isTrue h32 =>
  rw [Option.some_inj] at hdlo
  subst hdlo
  refine ⟨by rw [habb0], ?_, ?_, ?_, ?_, ?_, ?_, ?_, ?_, ?_, ?_⟩
  · show (writeAt _ 0 (beBytes 4 _)).take 8 = _
    rw [writeAt_header_take8, habb0]
  · show 8 ≤ (writeAt _ 0 (beBytes 4 _)).length
    exact writeAt_header_length _ _
  · show 16 ≤ align_to_16 _
    rw [habb0]
    exact hd16
  · intro o ho
    simp only [List.mem_map, List.mem_range] at ho
    obtain ⟨i, _, rfl⟩ := ho
    rw [habb0]
    omega
  · intro o ho
    simp only [List.mem_map, List.mem_range] at ho
    obtain ⟨i, _, rfl⟩ := ho
    rw [habb0]
    omega
  · intro o ho
    simp only [List.mem_map, List.mem_range] at ho
    obtain ⟨i, _, rfl⟩ := ho
    rw [habb0]
    omega
  · intro o ho
    have := cumOffsets_mem_ge _ _ o ho
    rw [habb0] at this
    omega
  · intro o ho
    have := cumOffsets_mem_ge _ _ o ho
    rw [habb0] at this
    omega
  · intro o ho
    have := cumOffsets_mem_ge _ _ o ho
    rw [habb0] at this
    omega
  · show 16 ≤ align_to_16 _
    have h1 := align_to_16_ge ((align_to_16 ((beBytes 4 0 ++ beBytes 4 0 ++
      (g.instrument_index_map.map (fun _ => beBytes 4 0)).flatten).length)) +
      align_to_16 ((g.drum_index_map.map (fun _ => beBytes 4 0)).flatten).length +
      0x20 * insts.length + 0x10 * drums.length +
      0x10 * g.sample_registry.length + envSizes.sum + lbSizes.sum + cbSizes.sum)
    rw [habb0] at h1 ⊢
    omega

end Z64

namespace Z64

theorem writeAt_zero_take8 (buf d : Bytes) (h8 : 8 ≤ d.length) :
    (writeAt buf 0 d).take 8 = d.take 8 ∧ 8 ≤ (writeAt buf 0 d).length := by
  unfold writeAt
  rw [List.take_zero, List.nil_append]
  constructor
  · exact List.take_append_of_le_length h8
  · simp only [List.length_append]
    omega

theorem pad_take8 (b : Bytes) (h8 : 8 ≤ b.length) :
    (add_padding_to_16 b).take 8 = b.take 8 ∧
    8 ≤ (add_padding_to_16 b).length := by
  unfold add_padding_to_16
  constructor
  · exact List.take_append_of_le_length h8
  · simp only [List.length_append]
    omega

theorem zip_fst_bound {offs : List Nat} {bs : List Bytes} {m : Nat}
    (hoffs : ∀ o ∈ offs, m ≤ o) : ∀ q ∈ offs.zip bs, m ≤ q.1 := by
  intro q hq
  exact hoffs q.1 (List.of_mem_zip hq).1

/-- The write pass never touches the first 8 bytes after re-splicing the
patched ABBANK table: every later write lands at offset 8 or beyond. -/
theorem writePass_header (g : Audiobank) (p : Pass1)
    (ui : List Instrument) (ud : List Drum) (us : Registry Sample) (out : Bytes)
    (h : g.writePass p ui ud us = some out)
    (habb8 : 8 ≤ p.abbank1.length)
    (hdl : 16 ≤ p.drumlist_offset)
    (hio : ∀ o ∈ p.instOffs, 16 ≤ o) (hdo : ∀ o ∈ p.drumOffs, 16 ≤ o)
    (hso : ∀ o ∈ p.sampleOffs, 16 ≤ o) (heo : ∀ o ∈ p.envOffs, 16 ≤ o)
    (hlo : ∀ o ∈ p.lbOffs, 16 ≤ o) (hco : ∀ o ∈ p.cbOffs, 16 ≤ o) :
    out.take 8 = p.abbank1.take 8 := by
  unfold Audiobank.writePass at h
  simp only [Option.bind_eq_bind', Option.bind_eq_some', Option.some_inj] at h
  obtain ⟨abbank2, hpatch, drumlist1, hpatch2, instBytes, hib, drumBytes, hdb,
    smpBytes, hsb, envBytes, heb2, lbBytes, hlb2, cbBytes, hcb2, hout⟩ := h
  subst hout
  have hd8 : (8 : Nat) ≤ p.drumlist_offset := by omega
  set buf1 := writeAt (List.replicate p.total_size (0 : Nat)) 0
    (add_padding_to_16 p.abbank1) with hbuf1
  set buf2 := writeAt buf1 p.drumlist_offset (add_padding_to_16 p.drumlist0)
    with hbuf2
  set buf3 := writeAt buf2 0 abbank2 with hbuf3
  set buf4 := writeAt buf3 p.drumlist_offset drumlist1 with hbuf4
  set buf5 := writeAtAll buf4 (p.instOffs.zip instBytes) with hbuf5
  set buf6 := writeAtAll buf5 (p.drumOffs.zip drumBytes) with hbuf6
  set buf7 := writeAtAll buf6 (p.sampleOffs.zip smpBytes) with hbuf7
  set buf8 := writeAtAll buf7 (p.envOffs.zip envBytes) with hbuf8
  set buf9 := writeAtAll buf8 (p.lbOffs.zip lbBytes) with hbuf9
  have hpat := patchPtrTable_take p.instOffs g.instrument_index_map p.abbank1 0
    abbank2 habb8 hpatch
  have s3 := writeAt_zero_take8 buf2 abbank2 hpat.2
  have s4t := writeAt_take buf3 drumlist1 p.drumlist_offset 8 hd8 s3.2
  have s4l := writeAt_length_ge buf3 drumlist1 p.drumlist_offset 8 hd8 s3.2
  have s5 := writeAtAll_take (p.instOffs.zip instBytes) buf4 8
    (zip_fst_bound (fun o ho => by have := hio o ho; omega)) s4l
  have s6 := writeAtAll_take (p.drumOffs.zip drumBytes) buf5 8
    (zip_fst_bound (fun o ho => by have := hdo o ho; omega)) s5.2
  have s7 := writeAtAll_take (p.sampleOffs.zip smpBytes) buf6 8
    (zip_fst_bound (fun o ho => by have := hso o ho; omega)) s6.2
  have s8 := writeAtAll_take (p.envOffs.zip envBytes) buf7 8
    (zip_fst_bound (fun o ho => by have := heo o ho; omega)) s7.2
  have s9 := writeAtAll_take (p.lbOffs.zip lbBytes) buf8 8
    (zip_fst_bound (fun o ho => by have := hlo o ho; omega)) s8.2
  have s10 := writeAtAll_take (p.cbOffs.zip cbBytes) buf9 8
    (zip_fst_bound (fun o ho => by have := hco o ho; omega)) s9.2
  rw [s10.1, s9.1, s8.1, s7.1, s6.1, s5.1, s4t, s3.1, hpat.1]

end Z64

namespace Z64

/-- C8 as amended: every buffer `Audiobank.to_bytes` produces has its
drum-list pointer (bytes 0..3) equal to the allocation-pass offset of the
DRUMLIST table — `align_to_16(8 + 4*len(instrument_index_map))` — and its
effect-list pointer (bytes 4..7) equal to 0: no effect-list table is
allocated and that pointer is never patched. -/
theorem C8_amended (g : Audiobank) (out : Bytes)
    (h : Audiobank.toBytes g = some out) :
    pySlice out 0 4 =
      beBytes 4 (align_to_16 (8 + 4 * g.instrument_index_map.length)) ∧
    pySlice out 4 8 = [0, 0, 0, 0] := by
  unfold Audiobank.toBytes at h
  simp only [Option.bind_eq_bind', Option.bind_eq_some', Option.some_inj] at h
  obtain ⟨p, hp, ⟨ua, ub, uc⟩, hu, hw⟩ := h
  obtain ⟨hdv, htake, habb8, hdl, hio, hdo, hso, heo, hlo2, hco, htot⟩ :=
    pass1_header_facts g p hp
  have hout8 : out.take 8 = p.abbank1.take 8 :=
    writePass_header g p ua ub uc out hw habb8 hdl hio hdo hso heo hlo2 hco
  rw [htake, hdv] at hout8
  constructor
  · show (out.drop 0).take (4 - 0) = _
    rw [List.drop_zero]
    have h48 : out.take 4 = (out.take 8).take 4 := by
      rw [List.take_take]
      norm_num
    rw [show (4 - 0) = 4 from rfl, h48, hout8,
      List.take_append_of_le_length (by simp [beBytes_length]),
      List.take_of_length_le (by simp [beBytes_length])]
  · show (out.drop 4).take (8 - 4) = _
    have hdt : (out.take 8).drop 4 = (out.drop 4).take (8 - 4) := by
      rw [List.drop_take]
    rw [← hdt, hout8, List.drop_left' (beBytes_length 4 _)]

set_option maxRecDepth 16000 in
/-- Witness for the amended C8 at the concrete encode of the effect-only
bank object `gE`. -/
theorem C8_amended_witness :
    pySlice outE 0 4 =
      beBytes 4 (align_to_16 (8 + 4 * gE.instrument_index_map.length)) ∧
    pySlice outE 4 8 = [0, 0, 0, 0] :=
  C8_amended gE outE rfl

end Z64
